import Mathlib

/-!
# QLC+ input channel (`engine/src/qlcinputchannel.cpp`)

A shallow embedding of `QLCInputChannel`: the record, its setters, the type vocabulary
(`typeToString`, `stringToType`, `types`) and the XML codec (`loadXML`, `saveXML`).

The Qt classes the codec talks to are modelled at the level of XML events:
`QXmlStreamWriter` records the events it is asked to write, `QXmlStreamReader` is a cursor
over a list of events. The character-level encoding of a document (escaping, encodings) is
below this level and is not modelled.
-/

namespace QLC

/-! ## Data model -/

/-- The kinds of an input channel, enum `QLCInputChannel::Type`. -/
inductive ChannelType
  | Button
  | Knob
  | Encoder
  | Slider
  | NextPage
  | PrevPage
  | PageSet
  | NoType
  deriving DecidableEq

/-- The movement interpretation of a channel, enum `QLCInputChannel::MovementType`. -/
inductive MovementType
  | Absolute
  | Relative
  deriving DecidableEq

/-- The string constants `KXMLQLCInputChannel*` that `qlcinputchannel.cpp` uses. They are
declared in `qlcinputchannel.h`, which is not among the sources, so the code is embedded
over an arbitrary table of them. -/
structure Vocabulary where
  KXMLQLCInputChannel : String
  KXMLQLCInputChannelNumber : String
  KXMLQLCInputChannelName : String
  KXMLQLCInputChannelType : String
  KXMLQLCInputChannelExtraPress : String
  KXMLQLCInputChannelMovement : String
  KXMLQLCInputChannelSensitivity : String
  KXMLQLCInputChannelRelative : String
  KXMLQLCInputChannelFeedbacks : String
  KXMLQLCInputChannelLowerValue : String
  KXMLQLCInputChannelUpperValue : String
  KXMLQLCInputChannelButton : String
  KXMLQLCInputChannelKnob : String
  KXMLQLCInputChannelEncoder : String
  KXMLQLCInputChannelSlider : String
  KXMLQLCInputChannelPageUp : String
  KXMLQLCInputChannelPageDown : String
  KXMLQLCInputChannelPageSet : String
  KXMLQLCInputChannelNone : String

/-- The seven tokens of the named types, in the order `stringToType` tests them. -/
def Vocabulary.typeTokens (V : Vocabulary) : List String :=
  [V.KXMLQLCInputChannelButton, V.KXMLQLCInputChannelKnob, V.KXMLQLCInputChannelEncoder,
   V.KXMLQLCInputChannelSlider, V.KXMLQLCInputChannelPageUp, V.KXMLQLCInputChannelPageDown,
   V.KXMLQLCInputChannelPageSet]

/-- The tags of the five children `loadXML` recognises, in the order it tests them. -/
def Vocabulary.childTags (V : Vocabulary) : List String :=
  [V.KXMLQLCInputChannelName, V.KXMLQLCInputChannelType, V.KXMLQLCInputChannelExtraPress,
   V.KXMLQLCInputChannelMovement, V.KXMLQLCInputChannelFeedbacks]

/-- The spec's "distinct literal per type": the seven type tokens differ pairwise. -/
def Vocabulary.TypesDistinct (V : Vocabulary) : Prop := V.typeTokens.Nodup

/-- The spec's dedicated "none" token: it is none of the seven type tokens. -/
def Vocabulary.NoneDedicated (V : Vocabulary) : Prop :=
  V.KXMLQLCInputChannelNone ∉ V.typeTokens

/-- The five child tags differ pairwise, and so do the two attributes of `feedbacks`. -/
def Vocabulary.TagsDistinct (V : Vocabulary) : Prop :=
  V.childTags.Nodup ∧ V.KXMLQLCInputChannelLowerValue ≠ V.KXMLQLCInputChannelUpperValue

instance (V : Vocabulary) : Decidable V.TypesDistinct :=
  inferInstanceAs (Decidable (V.typeTokens.Nodup))

instance (V : Vocabulary) : Decidable V.NoneDedicated :=
  inferInstanceAs (Decidable (V.KXMLQLCInputChannelNone ∉ V.typeTokens))

instance (V : Vocabulary) : Decidable V.TagsDistinct :=
  inferInstanceAs (Decidable (V.childTags.Nodup ∧
    V.KXMLQLCInputChannelLowerValue ≠ V.KXMLQLCInputChannelUpperValue))

/-- Modelled from the spec: the values of the `KXMLQLCInputChannel*` constants of the absent
header `qlcinputchannel.h`, spelled with the words sections 4 and 6 of the spec use for them
(`name`, `type`, `extra-press`, `movement`, `feedbacks`, `sensitivity`, `lower-value`,
`upper-value`, the "Relative" marker, the "none" token, and one literal per type). -/
def specVocabulary : Vocabulary where
  KXMLQLCInputChannel := "channel"
  KXMLQLCInputChannelNumber := "number"
  KXMLQLCInputChannelName := "name"
  KXMLQLCInputChannelType := "type"
  KXMLQLCInputChannelExtraPress := "extra-press"
  KXMLQLCInputChannelMovement := "movement"
  KXMLQLCInputChannelSensitivity := "sensitivity"
  KXMLQLCInputChannelRelative := "Relative"
  KXMLQLCInputChannelFeedbacks := "feedbacks"
  KXMLQLCInputChannelLowerValue := "lower-value"
  KXMLQLCInputChannelUpperValue := "upper-value"
  KXMLQLCInputChannelButton := "Button"
  KXMLQLCInputChannelKnob := "Knob"
  KXMLQLCInputChannelEncoder := "Encoder"
  KXMLQLCInputChannelSlider := "Slider"
  KXMLQLCInputChannelPageUp := "PageUp"
  KXMLQLCInputChannelPageDown := "PageDown"
  KXMLQLCInputChannelPageSet := "PageSet"
  KXMLQLCInputChannelNone := "none"

/-- The constant `UCHAR_MAX` of `<climits>`. -/
def UCHAR_MAX : Nat := 255

/-- The constant `INT_MIN` of a 32-bit `int`. -/
def INT_MIN : Int := -2147483648

/-- The constant `INT_MAX` of a 32-bit `int`. -/
def INT_MAX : Int := 2147483647

/-- The constant `UINT_MAX` of a 32-bit `unsigned int`. -/
def UINT_MAX : Nat := 4294967295

/-- The record `QLCInputChannel`: one member per `m_*` field. `m_movementSensitivity` is a C++
`int`, `m_lower` and `m_upper` are `uchar`. -/
structure QLCInputChannel where
  m_name : String
  m_type : ChannelType
  m_movementType : MovementType
  m_movementSensitivity : Int
  m_sendExtraPress : Bool
  m_lower : Nat
  m_upper : Nat
  deriving DecidableEq

/-- The values the C++ member types admit: a 32-bit `int` and two `uchar`. -/
def QLCInputChannel.InRange (c : QLCInputChannel) : Prop :=
  INT_MIN ≤ c.m_movementSensitivity ∧ c.m_movementSensitivity ≤ INT_MAX ∧
  c.m_lower ≤ UCHAR_MAX ∧ c.m_upper ≤ UCHAR_MAX

instance (c : QLCInputChannel) : Decidable c.InRange :=
  inferInstanceAs (Decidable (INT_MIN ≤ c.m_movementSensitivity ∧
    c.m_movementSensitivity ≤ INT_MAX ∧ c.m_lower ≤ UCHAR_MAX ∧ c.m_upper ≤ UCHAR_MAX))

/-- The constructor `QLCInputChannel::QLCInputChannel()`. -/
def QLCInputChannel.ctor : QLCInputChannel where
  m_name := ""
  m_type := ChannelType.Button
  m_movementType := MovementType.Absolute
  m_movementSensitivity := 20
  m_sendExtraPress := false
  m_lower := 0
  m_upper := UCHAR_MAX

namespace QLCInputChannel

/-! ## Accessors and mutators -/

/-- The setter `setType`: the type is replaced and the sensitivity reset to the type's default. -/
def setType (c : QLCInputChannel) (type : ChannelType) : QLCInputChannel :=
  let c := { c with m_type := type }
  if type = ChannelType.Encoder then
    { c with m_movementSensitivity := 1 }
  else
    { c with m_movementSensitivity := 20 }

/-- The getter `type`. -/
def type (c : QLCInputChannel) : ChannelType := c.m_type

/-- The setter `setName`. -/
def setName (c : QLCInputChannel) (name : String) : QLCInputChannel :=
  { c with m_name := name }

/-- The getter `name`. -/
def name (c : QLCInputChannel) : String := c.m_name

/-- The getter `movementType`. -/
def movementType (c : QLCInputChannel) : MovementType := c.m_movementType

/-- The setter `setMovementType`. -/
def setMovementType (c : QLCInputChannel) (type : MovementType) : QLCInputChannel :=
  { c with m_movementType := type }

/-- The getter `movementSensitivity`. -/
def movementSensitivity (c : QLCInputChannel) : Int := c.m_movementSensitivity

/-- The setter `setMovementSensitivity`. -/
def setMovementSensitivity (c : QLCInputChannel) (value : Int) : QLCInputChannel :=
  { c with m_movementSensitivity := value }

/-- The setter `setSendExtraPress`. -/
def setSendExtraPress (c : QLCInputChannel) (enable : Bool) : QLCInputChannel :=
  { c with m_sendExtraPress := enable }

/-- The getter `sendExtraPress`. -/
def sendExtraPress (c : QLCInputChannel) : Bool := c.m_sendExtraPress

/-- The setter `setRange`. -/
def setRange (c : QLCInputChannel) (lower upper : Nat) : QLCInputChannel :=
  { c with m_lower := lower, m_upper := upper }

/-- The getter `lowerValue`. -/
def lowerValue (c : QLCInputChannel) : Nat := c.m_lower

/-- The getter `upperValue`. -/
def upperValue (c : QLCInputChannel) : Nat := c.m_upper

/-- The copy operation `createCopy`: a fresh record filled through the setters. -/
def createCopy (this : QLCInputChannel) : QLCInputChannel :=
  let copy := QLCInputChannel.ctor
  let copy := copy.setName this.name
  let copy := copy.setType this.type
  let copy := copy.setMovementType this.movementType
  let copy := copy.setMovementSensitivity this.movementSensitivity
  let copy := copy.setSendExtraPress this.sendExtraPress
  copy.setRange this.lowerValue this.upperValue

/-! ## Type vocabulary -/

/-- The static function `typeToString`; the `default` branch is the `NoType` member. -/
def typeToString (V : Vocabulary) (type : ChannelType) : String :=
  match type with
  | ChannelType.Button => V.KXMLQLCInputChannelButton
  | ChannelType.Knob => V.KXMLQLCInputChannelKnob
  | ChannelType.Encoder => V.KXMLQLCInputChannelEncoder
  | ChannelType.Slider => V.KXMLQLCInputChannelSlider
  | ChannelType.NextPage => V.KXMLQLCInputChannelPageUp
  | ChannelType.PrevPage => V.KXMLQLCInputChannelPageDown
  | ChannelType.PageSet => V.KXMLQLCInputChannelPageSet
  | ChannelType.NoType => V.KXMLQLCInputChannelNone

/-- The static function `stringToType`: a chain of exact comparisons. -/
def stringToType (V : Vocabulary) (type : String) : ChannelType :=
  if type = V.KXMLQLCInputChannelButton then ChannelType.Button
  else if type = V.KXMLQLCInputChannelKnob then ChannelType.Knob
  else if type = V.KXMLQLCInputChannelEncoder then ChannelType.Encoder
  else if type = V.KXMLQLCInputChannelSlider then ChannelType.Slider
  else if type = V.KXMLQLCInputChannelPageUp then ChannelType.NextPage
  else if type = V.KXMLQLCInputChannelPageDown then ChannelType.PrevPage
  else if type = V.KXMLQLCInputChannelPageSet then ChannelType.PageSet
  else ChannelType.NoType

/-- The static function `types`: the tokens in display order. -/
def types (V : Vocabulary) : List String :=
  [V.KXMLQLCInputChannelSlider, V.KXMLQLCInputChannelKnob, V.KXMLQLCInputChannelEncoder,
   V.KXMLQLCInputChannelButton, V.KXMLQLCInputChannelPageUp, V.KXMLQLCInputChannelPageDown,
   V.KXMLQLCInputChannelPageSet]

end QLCInputChannel

/-! ## Qt text conversions

`QString::number`, `QString::toInt`, `QString::toUInt` and the cast to `uchar`, as the Qt
documentation describes them: decimal text, an optional sign, surrounding white space
ignored, and the value 0 whenever the conversion fails or the number does not fit the type. -/

/-- The test `QChar::isSpace`: the ASCII blanks and the Unicode separators. -/
def QChar.isSpace (c : Char) : Bool :=
  c.toNat == 0x20 || (0x09 ≤ c.toNat && c.toNat ≤ 0x0d) || c.toNat == 0x85 ||
  c.toNat == 0xa0 || c.toNat == 0x1680 || (0x2000 ≤ c.toNat && c.toNat ≤ 0x200a) ||
  c.toNat == 0x2028 || c.toNat == 0x2029 || c.toNat == 0x202f || c.toNat == 0x205f ||
  c.toNat == 0x3000

/-- The characters of a text without its leading and trailing white space. -/
def trimmed (l : List Char) : List Char :=
  ((l.dropWhile QChar.isSpace).reverse.dropWhile QChar.isSpace).reverse

/-- The decimal digits of `n`, most significant first; `fuel` bounds the number of digits. -/
def decimal : Nat → Nat → List Char
  | 0, _ => []
  | fuel + 1, n =>
    if n < 10 then [Nat.digitChar n]
    else decimal fuel (n / 10) ++ [Nat.digitChar (n % 10)]

/-- The value of a sequence of decimal digits. -/
def digitsValue (l : List Char) : Nat :=
  l.foldl (fun a c => 10 * a + (c.toNat - 48)) 0

/-- A non-empty sequence of decimal digits read as a number; anything else is a failure. -/
def parseDigits (l : List Char) : Option Nat :=
  if l ≠ [] ∧ l.all Char.isDigit = true then some (digitsValue l) else none

/-- An optionally signed decimal number. -/
def parseSigned (l : List Char) : Option Int :=
  match l with
  | [] => none
  | c :: ds =>
    if c = '-' then
      match parseDigits ds with
      | some n => some (-Int.ofNat n)
      | none => none
    else if c = '+' then
      match parseDigits ds with
      | some n => some (Int.ofNat n)
      | none => none
    else
      match parseDigits (c :: ds) with
      | some n => some (Int.ofNat n)
      | none => none

/-- An unsigned decimal number: a leading `+` is accepted, a leading `-` is not. -/
def parseUnsigned (l : List Char) : Option Nat :=
  match l with
  | [] => none
  | c :: ds =>
    if c = '+' then parseDigits ds
    else parseDigits (c :: ds)

/-- The function `QString::number` on an integer: its decimal text. -/
def QString.number (n : Int) : String :=
  if n < 0 then String.mk ('-' :: decimal (n.natAbs + 1) n.natAbs)
  else String.mk (decimal (n.natAbs + 1) n.natAbs)

/-- The function `QString::toInt`: 0 when the text is no number or does not fit an `int`. -/
def QString.toInt (s : String) : Int :=
  match parseSigned (trimmed s.data) with
  | some v => if INT_MIN ≤ v ∧ v ≤ INT_MAX then v else 0
  | none => 0

/-- The function `QString::toUInt`: 0 when the text is no number or does not fit a `uint`. -/
def QString.toUInt (s : String) : Nat :=
  match parseUnsigned (trimmed s.data) with
  | some v => if v ≤ UINT_MAX then v else 0
  | none => 0

/-- The conversion `uchar(x)` of an unsigned integer: the low eight bits. -/
def uchar (x : Nat) : Nat := x % 256

/-! ## Qt XML streams -/

/-- The events of an XML stream that `QXmlStreamReader` reports and `QXmlStreamWriter` writes:
a start tag with its attributes, an end tag, character data, and `Comment` for a comment or
processing instruction. -/
inductive XmlEvent
  | StartElement (name : String) (attributes : List (String × String))
  | EndElement
  | Characters (text : String)
  | Comment
  deriving DecidableEq

/-- The lookup `QXmlStreamAttributes::hasAttribute`. -/
def hasAttribute (attributes : List (String × String)) (qualifiedName : String) : Bool :=
  attributes.any (fun a => a.1 == qualifiedName)

/-- The lookup `QXmlStreamAttributes::value`: the empty text when the attribute is absent. -/
def value (attributes : List (String × String)) (qualifiedName : String) : String :=
  match attributes.find? (fun a => a.1 == qualifiedName) with
  | some a => a.2
  | none => ""

/-- The state of a `QXmlStreamReader`: the event it is positioned on (`none` for no token
and for `Invalid`), the events still to be read, and whether an error was raised. Running out
of events raises an error, as a truncated document does. -/
structure QXmlStreamReader where
  tokenType : Option XmlEvent
  pending : List XmlEvent
  hasError : Bool
  deriving DecidableEq

namespace QXmlStreamReader

/-- A reader at the start of a stream of events. -/
def ofEvents (events : List XmlEvent) : QXmlStreamReader :=
  { tokenType := none, pending := events, hasError := false }

/-- The state after an error: every later read reports `Invalid`. -/
def invalid (pending : List XmlEvent) : QXmlStreamReader :=
  { tokenType := none, pending := pending, hasError := true }

/-- The test `isStartElement`. -/
def isStartElement (r : QXmlStreamReader) : Bool :=
  match r.tokenType with
  | some (XmlEvent.StartElement _ _) => true
  | _ => false

/-- The accessor `name`: the tag of the current start element. -/
def name (r : QXmlStreamReader) : String :=
  match r.tokenType with
  | some (XmlEvent.StartElement n _) => n
  | _ => ""

/-- The accessor `attributes`: the attributes of the current start element. -/
def attributes (r : QXmlStreamReader) : List (String × String) :=
  match r.tokenType with
  | some (XmlEvent.StartElement _ a) => a
  | _ => []

/-- The loop of `readNextStartElement` over the pending events: it stops with `true` on a
start tag, with `false` on an end tag or when the events run out, and passes over the rest. -/
def readNextStartElementAux : List XmlEvent → Bool × QXmlStreamReader
  | [] => (false, invalid [])
  | XmlEvent.StartElement n a :: ts =>
    (true, { tokenType := some (XmlEvent.StartElement n a), pending := ts, hasError := false })
  | XmlEvent.EndElement :: ts =>
    (false, { tokenType := some XmlEvent.EndElement, pending := ts, hasError := false })
  | XmlEvent.Characters _ :: ts => readNextStartElementAux ts
  | XmlEvent.Comment :: ts => readNextStartElementAux ts

/-- The function `readNextStartElement`. -/
def readNextStartElement (r : QXmlStreamReader) : Bool × QXmlStreamReader :=
  if r.hasError then (false, invalid r.pending)
  else readNextStartElementAux r.pending

/-- The loop of `readElementText`: character data is collected up to the end tag; a child
element raises an error and the text read so far is returned. -/
def readElementTextAux : List XmlEvent → String → String × QXmlStreamReader
  | [], result => (result, invalid [])
  | XmlEvent.Characters t :: ts, result => readElementTextAux ts (result ++ t)
  | XmlEvent.Comment :: ts, result => readElementTextAux ts result
  | XmlEvent.EndElement :: ts, result =>
    (result, { tokenType := some XmlEvent.EndElement, pending := ts, hasError := false })
  | XmlEvent.StartElement _ _ :: ts, result => (result, invalid ts)

/-- The function `readElementText` with its default behaviour `ErrorOnUnexpectedElement`. -/
def readElementText (r : QXmlStreamReader) : String × QXmlStreamReader :=
  if r.isStartElement then
    if r.hasError then ("", invalid r.pending)
    else readElementTextAux r.pending ""
  else ("", r)

/-- The loop of `skipCurrentElement`: events are read until the depth, which starts at 1,
reaches 0. -/
def skipCurrentElementAux : List XmlEvent → Nat → QXmlStreamReader
  | [], _ => invalid []
  | XmlEvent.EndElement :: ts, depth =>
    if depth - 1 = 0 then
      { tokenType := some XmlEvent.EndElement, pending := ts, hasError := false }
    else skipCurrentElementAux ts (depth - 1)
  | XmlEvent.StartElement _ _ :: ts, depth => skipCurrentElementAux ts (depth + 1)
  | XmlEvent.Characters _ :: ts, depth => skipCurrentElementAux ts depth
  | XmlEvent.Comment :: ts, depth => skipCurrentElementAux ts depth

/-- The function `skipCurrentElement`. -/
def skipCurrentElement (r : QXmlStreamReader) : QXmlStreamReader :=
  if r.hasError then invalid r.pending
  else skipCurrentElementAux r.pending 1

end QXmlStreamReader

/-- The device behind a writer, as far as `saveXML` and the writer depend on it. -/
structure Device where
  isOpen : Bool
  deriving DecidableEq

/-- The state of a `QXmlStreamWriter`: its device (`none` when `device()` is null), the events
written so far, and the start tag that is still open for attributes. Nothing is written to a
device that is not open. -/
structure QXmlStreamWriter where
  device : Option Device
  written : List XmlEvent
  startTag : Option (String × List (String × String))
  deriving DecidableEq

namespace QXmlStreamWriter

/-- One event goes out, unless the device is there and closed. -/
def put (w : QXmlStreamWriter) (e : XmlEvent) : QXmlStreamWriter :=
  if w.device = some { isOpen := false } then w
  else { w with written := w.written ++ [e] }

/-- The open start tag, if there is one, is completed and goes out. -/
def closeStartTag (w : QXmlStreamWriter) : QXmlStreamWriter :=
  match w.startTag with
  | some (n, a) => { w.put (XmlEvent.StartElement n a) with startTag := none }
  | none => w

/-- The function `writeStartElement`. -/
def writeStartElement (w : QXmlStreamWriter) (qualifiedName : String) : QXmlStreamWriter :=
  { w.closeStartTag with startTag := some (qualifiedName, []) }

/-- The function `writeAttribute`: it adds to the start tag written last. -/
def writeAttribute (w : QXmlStreamWriter) (qualifiedName value : String) : QXmlStreamWriter :=
  match w.startTag with
  | some (n, a) => { w with startTag := some (n, a ++ [(qualifiedName, value)]) }
  | none => w

/-- The function `writeCharacters`: empty text leaves no character data in the stream. -/
def writeCharacters (w : QXmlStreamWriter) (text : String) : QXmlStreamWriter :=
  if text = "" then w.closeStartTag
  else w.closeStartTag.put (XmlEvent.Characters text)

/-- The function `writeEndElement`. -/
def writeEndElement (w : QXmlStreamWriter) : QXmlStreamWriter :=
  w.closeStartTag.put XmlEvent.EndElement

/-- The function `writeTextElement`: a start tag, the text, the end tag. -/
def writeTextElement (w : QXmlStreamWriter) (qualifiedName text : String) : QXmlStreamWriter :=
  ((w.writeStartElement qualifiedName).writeCharacters text).writeEndElement

end QXmlStreamWriter

namespace QLCInputChannel

/-! ## Load & Save -/

/-- The body of the `while` loop of `loadXML`: the reader is on the start tag of a child and
the chain of comparisons on `root.name()` picks what to do with it. -/
def loadXMLChild (V : Vocabulary) (root : QXmlStreamReader) (c : QLCInputChannel) :
    QLCInputChannel × QXmlStreamReader :=
  if root.name = V.KXMLQLCInputChannelName then
    let text := root.readElementText
    (c.setName text.1, text.2)
  else if root.name = V.KXMLQLCInputChannelType then
    let text := root.readElementText
    (c.setType (stringToType V text.1), text.2)
  else if root.name = V.KXMLQLCInputChannelExtraPress then
    let text := root.readElementText
    (c.setSendExtraPress true, text.2)
  else if root.name = V.KXMLQLCInputChannelMovement then
    let c :=
      if hasAttribute root.attributes V.KXMLQLCInputChannelSensitivity then
        c.setMovementSensitivity
          (QString.toInt (value root.attributes V.KXMLQLCInputChannelSensitivity))
      else c
    let text := root.readElementText
    (if text.1 = V.KXMLQLCInputChannelRelative then c.setMovementType MovementType.Relative
     else c, text.2)
  else if root.name = V.KXMLQLCInputChannelFeedbacks then
    let min :=
      if hasAttribute root.attributes V.KXMLQLCInputChannelLowerValue then
        uchar (QString.toUInt (value root.attributes V.KXMLQLCInputChannelLowerValue))
      else 0
    let max :=
      if hasAttribute root.attributes V.KXMLQLCInputChannelUpperValue then
        uchar (QString.toUInt (value root.attributes V.KXMLQLCInputChannelUpperValue))
      else UCHAR_MAX
    (c.setRange min max, root.skipCurrentElement)
  else
    (c, root.skipCurrentElement)

/-- The `while (root.readNextStartElement())` loop of `loadXML`. Every turn consumes at least
one pending event, so `fuel` above the number of pending events never runs out. -/
def loadXMLLoop (V : Vocabulary) :
    Nat → QXmlStreamReader → QLCInputChannel → QLCInputChannel × QXmlStreamReader
  | 0, root, c => (c, root)
  | fuel + 1, root, c =>
    if root.readNextStartElement.1 then
      let step := loadXMLChild V root.readNextStartElement.2 c
      loadXMLLoop V fuel step.2 step.1
    else (c, root.readNextStartElement.2)

/-- The `while` loop of `loadXML`, run with fuel above the number of pending events. -/
def loadXMLWhile (V : Vocabulary) (root : QXmlStreamReader) (c : QLCInputChannel) :
    QLCInputChannel × QXmlStreamReader :=
  loadXMLLoop V (root.pending.length + 1) root c

/-- The method `loadXML`: the result, the record after the call and the reader after it. -/
def loadXML (V : Vocabulary) (c : QLCInputChannel) (root : QXmlStreamReader) :
    Bool × QLCInputChannel × QXmlStreamReader :=
  if root.isStartElement = false ∨ root.name ≠ V.KXMLQLCInputChannel then
    (false, c, root)
  else
    let done := loadXMLWhile V root c
    (true, done.1, done.2)

/-- The method `saveXML`: the result and the writer after the call; `doc = none` is the null
pointer and `channelNumber` a `quint32`. -/
def saveXML (V : Vocabulary) (c : QLCInputChannel) (doc : Option QXmlStreamWriter)
    (channelNumber : Nat) : Bool × Option QXmlStreamWriter :=
  match doc with
  | none => (false, none)
  | some doc =>
    if doc.device = none then (false, some doc)
    else
      let doc := doc.writeStartElement V.KXMLQLCInputChannel
      let doc := doc.writeAttribute V.KXMLQLCInputChannelNumber (QString.number channelNumber)
      let doc := doc.writeTextElement V.KXMLQLCInputChannelName c.m_name
      let doc := doc.writeTextElement V.KXMLQLCInputChannelType (typeToString V c.m_type)
      let doc :=
        if c.sendExtraPress = true then
          doc.writeTextElement V.KXMLQLCInputChannelExtraPress "True"
        else doc
      let doc :=
        if (c.type = ChannelType.Slider ∨ c.type = ChannelType.Knob) ∧
            c.movementType = MovementType.Relative then
          let doc := doc.writeStartElement V.KXMLQLCInputChannelMovement
          let doc := doc.writeAttribute V.KXMLQLCInputChannelSensitivity
            (QString.number c.movementSensitivity)
          let doc := doc.writeCharacters V.KXMLQLCInputChannelRelative
          doc.writeEndElement
        else if c.type = ChannelType.Encoder then
          let doc := doc.writeStartElement V.KXMLQLCInputChannelMovement
          let doc := doc.writeAttribute V.KXMLQLCInputChannelSensitivity
            (QString.number c.movementSensitivity)
          doc.writeEndElement
        else if c.type = ChannelType.Button ∧ (c.lowerValue ≠ 0 ∨ c.upperValue ≠ UCHAR_MAX) then
          let doc := doc.writeStartElement V.KXMLQLCInputChannelFeedbacks
          let doc :=
            if c.lowerValue ≠ 0 then
              doc.writeAttribute V.KXMLQLCInputChannelLowerValue (QString.number c.lowerValue)
            else doc
          let doc :=
            if c.upperValue ≠ UCHAR_MAX then
              doc.writeAttribute V.KXMLQLCInputChannelUpperValue (QString.number c.upperValue)
            else doc
          doc.writeEndElement
        else doc
      (true, some doc.writeEndElement)

/-- A writer on an open device that has written nothing yet. -/
def freshWriter : QXmlStreamWriter :=
  { device := some { isOpen := true }, written := [], startTag := none }

/-- The events `saveXML` writes for a record through a fresh writer on an open device. -/
def savedEvents (V : Vocabulary) (c : QLCInputChannel) (channelNumber : Nat) : List XmlEvent :=
  match (saveXML V c (some freshWriter) channelNumber).2 with
  | some doc => doc.written
  | none => []

/-- Serialize, then deserialize into a freshly constructed record: a reader over the saved
events is advanced onto the first start tag, as the loader of a profile does before it calls
`loadXML`. The result of `loadXML` and the loaded record are returned. -/
def saveThenLoad (V : Vocabulary) (c : QLCInputChannel) (channelNumber : Nat) :
    Bool × QLCInputChannel :=
  let root := (QXmlStreamReader.ofEvents (savedEvents V c channelNumber)).readNextStartElement.2
  let loaded := loadXML V QLCInputChannel.ctor root
  (loaded.1, loaded.2.1)

/-- What a round trip through `saveXML` and `loadXML` makes of a record: the movement type
is kept for a relative slider or knob, the sensitivity for these and for an encoder, the
range for a button; everything else comes back as the constructor or `setType` left it. -/
def persisted (c : QLCInputChannel) : QLCInputChannel where
  m_name := c.m_name
  m_type := c.m_type
  m_movementType :=
    if (c.m_type = ChannelType.Slider ∨ c.m_type = ChannelType.Knob) ∧
        c.m_movementType = MovementType.Relative then MovementType.Relative
    else MovementType.Absolute
  m_movementSensitivity :=
    if (c.m_type = ChannelType.Slider ∨ c.m_type = ChannelType.Knob) ∧
        c.m_movementType = MovementType.Relative then c.m_movementSensitivity
    else if c.m_type = ChannelType.Encoder then c.m_movementSensitivity
    else 20
  m_sendExtraPress := c.m_sendExtraPress
  m_lower := if c.m_type = ChannelType.Button then c.m_lower else 0
  m_upper := if c.m_type = ChannelType.Button then c.m_upper else UCHAR_MAX

/-- The records whose every attribute `saveXML` writes or `loadXML` restores by default:
relative movement only on a slider or knob, a sensitivity other than 20 only on an encoder
or a relative slider or knob, a range other than (0, 255) only on a button. -/
def Persistent (c : QLCInputChannel) : Prop :=
  (c.m_movementType = MovementType.Relative →
    c.m_type = ChannelType.Slider ∨ c.m_type = ChannelType.Knob) ∧
  (c.m_movementSensitivity ≠ 20 → c.m_type = ChannelType.Encoder ∨
    ((c.m_type = ChannelType.Slider ∨ c.m_type = ChannelType.Knob) ∧
      c.m_movementType = MovementType.Relative)) ∧
  ((c.m_lower ≠ 0 ∨ c.m_upper ≠ UCHAR_MAX) → c.m_type = ChannelType.Button)

instance (c : QLCInputChannel) : Decidable c.Persistent :=
  inferInstanceAs (Decidable (_ ∧ _ ∧ _))

end QLCInputChannel

/-- The table is usable as an XML vocabulary: distinct type tokens, a dedicated "none" token,
distinct child tags and feedback attributes, and a "Relative" marker that is not empty. -/
def Vocabulary.WellFormed (V : Vocabulary) : Prop :=
  V.TypesDistinct ∧ V.NoneDedicated ∧ V.TagsDistinct ∧ V.KXMLQLCInputChannelRelative ≠ ""

instance (V : Vocabulary) : Decidable V.WellFormed :=
  inferInstanceAs (Decidable (_ ∧ _ ∧ _ ∧ _))

/-- The events of an element written by `writeTextElement`: a start tag without attributes,
the text unless it is empty, the end tag. -/
def textElement (tag text : String) : List XmlEvent :=
  if text = "" then [XmlEvent.StartElement tag [], XmlEvent.EndElement]
  else [XmlEvent.StartElement tag [], XmlEvent.Characters text, XmlEvent.EndElement]

/-- The events of the one child `saveXML` writes last, if it writes one: `movement` with
the "Relative" marker for a relative slider or knob, `movement` without text for an encoder,
`feedbacks` for a button with a range other than (0, 255). -/
def movementOrFeedbacks (V : Vocabulary) (c : QLCInputChannel) : List XmlEvent :=
  if (c.m_type = ChannelType.Slider ∨ c.m_type = ChannelType.Knob) ∧
      c.m_movementType = MovementType.Relative then
    XmlEvent.StartElement V.KXMLQLCInputChannelMovement
        [(V.KXMLQLCInputChannelSensitivity, QString.number c.m_movementSensitivity)] ::
      (if V.KXMLQLCInputChannelRelative = "" then [XmlEvent.EndElement]
       else [XmlEvent.Characters V.KXMLQLCInputChannelRelative, XmlEvent.EndElement])
  else if c.m_type = ChannelType.Encoder then
    [XmlEvent.StartElement V.KXMLQLCInputChannelMovement
        [(V.KXMLQLCInputChannelSensitivity, QString.number c.m_movementSensitivity)],
      XmlEvent.EndElement]
  else if c.m_type = ChannelType.Button ∧ (c.m_lower ≠ 0 ∨ c.m_upper ≠ UCHAR_MAX) then
    [XmlEvent.StartElement V.KXMLQLCInputChannelFeedbacks
        ((if c.m_lower ≠ 0 then
            [(V.KXMLQLCInputChannelLowerValue, QString.number c.m_lower)]
          else []) ++
         (if c.m_upper ≠ UCHAR_MAX then
            [(V.KXMLQLCInputChannelUpperValue, QString.number c.m_upper)]
          else [])),
      XmlEvent.EndElement]
  else []

/-- The content of an XML element as a tree: text, a comment or processing instruction, or a
child element with its own content. -/
inductive XmlNode
  | text (t : String)
  | comment
  | element (name : String) (attributes : List (String × String)) (children : List XmlNode)

mutual
/-- The events a reader reports for a node, in document order. -/
def XmlNode.events : XmlNode → List XmlEvent
  | XmlNode.text t => [XmlEvent.Characters t]
  | XmlNode.comment => [XmlEvent.Comment]
  | XmlNode.element n a cs =>
    XmlEvent.StartElement n a :: (XmlNode.eventsOfList cs ++ [XmlEvent.EndElement])
/-- The events a reader reports for a sequence of nodes. -/
def XmlNode.eventsOfList : List XmlNode → List XmlEvent
  | [] => []
  | n :: ns => n.events ++ XmlNode.eventsOfList ns
end

/-- The node is a child element whose tag `loadXML` does not recognise. -/
def XmlNode.isUnknownChild (V : Vocabulary) : XmlNode → Bool
  | XmlNode.element n _ _ => decide (n ∉ V.childTags)
  | _ => false

/-- The children of an element without the direct children `loadXML` does not recognise. -/
def removeUnknown (V : Vocabulary) (children : List XmlNode) : List XmlNode :=
  children.filter (fun n => !n.isUnknownChild V)

/-- A reader positioned on the start tag of an element with the given children; `rest` is
what follows the element in the document. -/
def QXmlStreamReader.onElement (name : String) (attributes : List (String × String))
    (children : List XmlNode) (rest : List XmlEvent) : QXmlStreamReader :=
  { tokenType := some (XmlEvent.StartElement name attributes),
    pending := XmlNode.eventsOfList children ++ XmlEvent.EndElement :: rest,
    hasError := false }

/-- The event is a start tag with the given name. -/
def XmlEvent.isStartOf (tag : String) : XmlEvent → Bool
  | XmlEvent.StartElement n _ => decide (n = tag)
  | _ => false

/-- The node is an element. -/
def XmlNode.isElement : XmlNode → Bool
  | XmlNode.element _ _ _ => true
  | _ => false

/-- The node is an element with the given tag. -/
def XmlNode.hasTag (tag : String) : XmlNode → Bool
  | XmlNode.element n _ _ => decide (n = tag)
  | _ => false

/-- The text `readElementText` returns on an element with this content: the character data
up to the end of the element or up to its first child element, comments left out. -/
def XmlNode.textRead : List XmlNode → String
  | [] => ""
  | XmlNode.text t :: ns => t ++ XmlNode.textRead ns
  | XmlNode.comment :: ns => XmlNode.textRead ns
  | XmlNode.element _ _ _ :: _ => ""

/-- The tags of the four children whose text `loadXML` reads with `readElementText`. -/
def Vocabulary.textTags (V : Vocabulary) : List String :=
  [V.KXMLQLCInputChannelName, V.KXMLQLCInputChannelType, V.KXMLQLCInputChannelExtraPress,
   V.KXMLQLCInputChannelMovement]

/-- The node is read by `loadXML` without an error: it is not a `name`, `type`, `extra-press`
or `movement` element that contains a child element. -/
def XmlNode.readsCleanly (V : Vocabulary) : XmlNode → Bool
  | XmlNode.element n _ kids =>
    !(decide (n ∈ V.textTags)) || kids.all (fun k => !k.isElement)
  | _ => true

/-- The node is no `movement` element whose text, as `loadXML` reads it, is the "Relative"
marker. -/
def XmlNode.notRelativeMovement (V : Vocabulary) : XmlNode → Bool
  | XmlNode.element n _ kids =>
    !(decide (n = V.KXMLQLCInputChannelMovement)) ||
      !(decide (XmlNode.textRead kids = V.KXMLQLCInputChannelRelative))
  | _ => true

/-! # Properties -/

/-! ## Decimal text -/

theorem digitChar_isDigit (d : Nat) (h : d < 10) : (Nat.digitChar d).isDigit = true := by
  interval_cases d <;> decide

theorem digitChar_value (d : Nat) (h : d < 10) : (Nat.digitChar d).toNat - 48 = d := by
  interval_cases d <;> decide

theorem decimal_all_isDigit (fuel n : Nat) : ∀ c ∈ decimal fuel n, c.isDigit = true := by
  induction fuel generalizing n with
  | zero => intro c hc; simp [decimal] at hc
  | succ fuel ih =>
    intro c hc
    unfold decimal at hc
    split at hc
    · rename_i hlt
      simp only [List.mem_singleton] at hc
      subst hc
      exact digitChar_isDigit n hlt
    · rcases List.mem_append.mp hc with h | h
      · exact ih _ c h
      · simp only [List.mem_singleton] at h
        subst h
        exact digitChar_isDigit _ (Nat.mod_lt _ (by decide))

theorem decimal_ne_nil (fuel n : Nat) : decimal (fuel + 1) n ≠ [] := by
  unfold decimal
  split <;> simp

theorem digitsValue_append_singleton (l : List Char) (c : Char) :
    digitsValue (l ++ [c]) = 10 * digitsValue l + (c.toNat - 48) := by
  simp [digitsValue, List.foldl_append]

theorem digitsValue_decimal (fuel n : Nat) (h : n < fuel) : digitsValue (decimal fuel n) = n := by
  induction fuel generalizing n with
  | zero => omega
  | succ fuel ih =>
    unfold decimal
    split
    · rename_i hlt
      simp [digitsValue, digitChar_value n hlt]
    · rename_i hge
      rw [digitsValue_append_singleton, ih (n / 10) (by omega),
        digitChar_value _ (Nat.mod_lt _ (by decide))]
      omega

theorem parseDigits_decimal (n : Nat) : parseDigits (decimal (n + 1) n) = some n := by
  unfold parseDigits
  rw [if_pos]
  · rw [digitsValue_decimal _ _ (Nat.lt_succ_self n)]
  · refine ⟨decimal_ne_nil n n, ?_⟩
    rw [List.all_eq_true]
    exact decimal_all_isDigit _ _

theorem isDigit_not_isSpace (c : Char) (h : c.isDigit = true) : QChar.isSpace c = false := by
  have h1 : 48 ≤ c.toNat ∧ c.toNat ≤ 57 := by
    simp only [Char.isDigit, Bool.and_eq_true, decide_eq_true_eq] at h
    have a := h.1
    have b := h.2
    simp only [UInt32.le_def, Fin.le_def] at a b
    exact ⟨a, b⟩
  simp only [QChar.isSpace, Bool.or_eq_false_iff, Bool.and_eq_false_iff, beq_eq_false_iff_ne,
    decide_eq_false_iff_not]
  omega

theorem trimmed_eq_self (l : List Char) (h : ∀ c ∈ l, QChar.isSpace c = false) :
    trimmed l = l := by
  have drop : ∀ m : List Char, (∀ c ∈ m, QChar.isSpace c = false) →
      m.dropWhile QChar.isSpace = m := by
    intro m hm
    cases m with
    | nil => rfl
    | cons a t => simp [List.dropWhile, hm a (List.mem_cons_self _ _)]
  unfold trimmed
  rw [drop l h, drop l.reverse (fun c hc => h c (List.mem_reverse.mp hc)), List.reverse_reverse]


theorem decimal_head (n : Nat) :
    ∃ c ds, decimal (n + 1) n = c :: ds ∧ c.isDigit = true := by
  cases h : decimal (n + 1) n with
  | nil => exact absurd h (decimal_ne_nil n n)
  | cons c ds =>
    exact ⟨c, ds, rfl, decimal_all_isDigit (n + 1) n c (by rw [h]; exact List.mem_cons_self _ _)⟩

theorem parseSigned_decimal (n : Nat) : parseSigned (decimal (n + 1) n) = some (n : Int) := by
  obtain ⟨c, ds, hcd, hc⟩ := decimal_head n
  have hm : c ≠ '-' := by intro e; subst e; exact absurd hc (by decide)
  have hp : c ≠ '+' := by intro e; subst e; exact absurd hc (by decide)
  have hd := parseDigits_decimal n
  rw [hcd] at hd ⊢
  simp only [parseSigned, hm, hp, if_false, hd]
  rfl

theorem parseUnsigned_decimal (n : Nat) : parseUnsigned (decimal (n + 1) n) = some n := by
  obtain ⟨c, ds, hcd, hc⟩ := decimal_head n
  have hp : c ≠ '+' := by intro e; subst e; exact absurd hc (by decide)
  have hd := parseDigits_decimal n
  rw [hcd] at hd ⊢
  simp [parseUnsigned, hp, hd]

theorem decimal_no_space (n : Nat) : ∀ c ∈ decimal (n + 1) n, QChar.isSpace c = false :=
  fun c hc => isDigit_not_isSpace c (decimal_all_isDigit _ _ c hc)

theorem parseSigned_minus_decimal (m : Nat) :
    parseSigned ('-' :: decimal (m + 1) m) = some (-(m : Int)) := by
  simp only [parseSigned, if_true, parseDigits_decimal]
  rfl

/-- Reading back the decimal text of an `int` gives the `int`. -/
theorem toInt_number (n : Int) (hlo : INT_MIN ≤ n) (hhi : n ≤ INT_MAX) :
    QString.toInt (QString.number n) = n := by
  unfold QString.toInt QString.number
  by_cases hn : n < 0
  · have hs : ∀ c ∈ '-' :: decimal (n.natAbs + 1) n.natAbs, QChar.isSpace c = false := by
      intro c hc
      rcases List.mem_cons.mp hc with h | h
      · subst h; decide
      · exact decimal_no_space _ c h
    have hv : (-(n.natAbs : Int)) = n := by omega
    rw [if_pos hn]
    show (match parseSigned (trimmed ('-' :: decimal (n.natAbs + 1) n.natAbs)) with
      | some v => if INT_MIN ≤ v ∧ v ≤ INT_MAX then v else 0
      | none => 0) = n
    rw [trimmed_eq_self _ hs, parseSigned_minus_decimal]
    show (if INT_MIN ≤ -(n.natAbs : Int) ∧ -(n.natAbs : Int) ≤ INT_MAX then
      -(n.natAbs : Int) else 0) = n
    rw [hv, if_pos ⟨hlo, hhi⟩]
  · have hv : ((n.natAbs : Nat) : Int) = n := by omega
    rw [if_neg hn]
    show (match parseSigned (trimmed (decimal (n.natAbs + 1) n.natAbs)) with
      | some v => if INT_MIN ≤ v ∧ v ≤ INT_MAX then v else 0
      | none => 0) = n
    rw [trimmed_eq_self _ (decimal_no_space _), parseSigned_decimal]
    show (if INT_MIN ≤ (n.natAbs : Int) ∧ (n.natAbs : Int) ≤ INT_MAX then
      (n.natAbs : Int) else 0) = n
    rw [hv, if_pos ⟨hlo, hhi⟩]

/-- Reading back the decimal text of a `uint` gives the `uint`. -/
theorem toUInt_number (n : Nat) (h : n ≤ UINT_MAX) :
    QString.toUInt (QString.number (n : Int)) = n := by
  unfold QString.toUInt QString.number
  have hn : ¬ ((n : Int) < 0) := by omega
  simp only [hn, if_false, Int.natAbs_ofNat, trimmed_eq_self _ (decimal_no_space _),
    parseUnsigned_decimal]
  simp [h]

/-- Reading back the decimal text of a `uchar` and casting gives the `uchar`. -/
theorem uchar_toUInt_number (n : Nat) (h : n ≤ UCHAR_MAX) :
    uchar (QString.toUInt (QString.number (n : Int))) = n := by
  have h255 : n ≤ 255 := h
  rw [toUInt_number n (by unfold UINT_MAX; omega)]
  unfold uchar
  omega


/-! ## The reader never goes backwards -/

namespace QXmlStreamReader

theorem readNextStartElementAux_length (l : List XmlEvent) :
    (readNextStartElementAux l).2.pending.length ≤ l.length ∧
    ((readNextStartElementAux l).1 = true →
      (readNextStartElementAux l).2.pending.length < l.length ∧
      (readNextStartElementAux l).2.hasError = false) := by
  induction l with
  | nil => simp [readNextStartElementAux, invalid]
  | cons e ts ih =>
    cases e with
    | StartElement n a => simp [readNextStartElementAux]
    | EndElement => simp [readNextStartElementAux]
    | Characters t =>
      simp only [readNextStartElementAux, List.length_cons]
      exact ⟨by omega, fun h => ⟨by have := (ih.2 h).1; omega, (ih.2 h).2⟩⟩
    | Comment =>
      simp only [readNextStartElementAux, List.length_cons]
      exact ⟨by omega, fun h => ⟨by have := (ih.2 h).1; omega, (ih.2 h).2⟩⟩

theorem readNextStartElement_length (r : QXmlStreamReader) :
    (readNextStartElement r).1 = true →
      (readNextStartElement r).2.pending.length < r.pending.length := by
  unfold readNextStartElement
  split
  · simp
  · exact fun h => ((readNextStartElementAux_length r.pending).2 h).1

theorem readElementTextAux_length (l : List XmlEvent) (acc : String) :
    (readElementTextAux l acc).2.pending.length ≤ l.length := by
  induction l generalizing acc with
  | nil => simp [readElementTextAux, invalid]
  | cons e ts ih =>
    cases e with
    | StartElement n a => simp [readElementTextAux, invalid]
    | EndElement => simp [readElementTextAux]
    | Characters t =>
      simp only [readElementTextAux, List.length_cons]
      have := ih (acc ++ t)
      omega
    | Comment =>
      simp only [readElementTextAux, List.length_cons]
      have := ih acc
      omega

theorem readElementText_length (r : QXmlStreamReader) :
    (readElementText r).2.pending.length ≤ r.pending.length := by
  unfold readElementText
  split
  · split
    · simp [invalid]
    · exact readElementTextAux_length _ _
  · simp

theorem skipCurrentElementAux_length (l : List XmlEvent) (depth : Nat) :
    (skipCurrentElementAux l depth).pending.length ≤ l.length := by
  induction l generalizing depth with
  | nil => simp [skipCurrentElementAux, invalid]
  | cons e ts ih =>
    cases e with
    | StartElement n a =>
      simp only [skipCurrentElementAux, List.length_cons]
      have := ih (depth + 1)
      omega
    | EndElement =>
      simp only [skipCurrentElementAux, List.length_cons]
      split
      · simp
      · have := ih (depth - 1)
        omega
    | Characters t =>
      simp only [skipCurrentElementAux, List.length_cons]
      have := ih depth
      omega
    | Comment =>
      simp only [skipCurrentElementAux, List.length_cons]
      have := ih depth
      omega

theorem skipCurrentElement_length (r : QXmlStreamReader) :
    (skipCurrentElement r).pending.length ≤ r.pending.length := by
  unfold skipCurrentElement
  split
  · simp [invalid]
  · exact skipCurrentElementAux_length _ _

end QXmlStreamReader

namespace QLCInputChannel

open QXmlStreamReader

theorem loadXMLChild_length (V : Vocabulary) (root : QXmlStreamReader) (c : QLCInputChannel) :
    (loadXMLChild V root c).2.pending.length ≤ root.pending.length := by
  unfold loadXMLChild
  split_ifs <;>
    first
    | exact readElementText_length root
    | exact skipCurrentElement_length root

/-- The loop of `loadXML` does not depend on its fuel once the fuel exceeds the number of
pending events: it ends because the reader reports no further child. -/
theorem loadXMLLoop_fuel (V : Vocabulary) (f1 f2 : Nat) (root : QXmlStreamReader)
    (c : QLCInputChannel) (h1 : root.pending.length < f1) (h2 : root.pending.length < f2) :
    loadXMLLoop V f1 root c = loadXMLLoop V f2 root c := by
  induction f1 generalizing f2 root c with
  | zero => omega
  | succ f1 ih =>
    cases f2 with
    | zero => omega
    | succ f2 =>
      unfold loadXMLLoop
      by_cases hr : root.readNextStartElement.1 = true
      · rw [if_pos hr, if_pos hr]
        have hlt := readNextStartElement_length root hr
        have hle := loadXMLChild_length V root.readNextStartElement.2 c
        exact ih f2 _ _ (by omega) (by omega)
      · rw [if_neg hr, if_neg hr]

theorem loadXMLWhile_eq_loop (V : Vocabulary) (fuel : Nat) (root : QXmlStreamReader)
    (c : QLCInputChannel) (h : root.pending.length < fuel) :
    loadXMLWhile V root c = loadXMLLoop V fuel root c :=
  loadXMLLoop_fuel V _ _ root c (Nat.lt_succ_self _) h

/-- One turn of the loop on a child element: the body runs on its start tag. -/
theorem loadXMLWhile_start (V : Vocabulary) (t0 : Option XmlEvent) (n : String)
    (a : List (String × String)) (evs : List XmlEvent) (c : QLCInputChannel) :
    loadXMLWhile V (QXmlStreamReader.mk t0 (XmlEvent.StartElement n a :: evs) false) c =
      loadXMLWhile V
        (loadXMLChild V (QXmlStreamReader.mk (some (XmlEvent.StartElement n a)) evs false) c).2
        (loadXMLChild V (QXmlStreamReader.mk (some (XmlEvent.StartElement n a)) evs false) c).1 := by
  have hle : (loadXMLChild V (QXmlStreamReader.mk (some (XmlEvent.StartElement n a)) evs
      false) c).2.pending.length < evs.length + 1 :=
    Nat.lt_succ_of_le (loadXMLChild_length V
      (QXmlStreamReader.mk (some (XmlEvent.StartElement n a)) evs false) c)
  rw [loadXMLWhile_eq_loop V (evs.length + 1)
    (loadXMLChild V (QXmlStreamReader.mk (some (XmlEvent.StartElement n a)) evs false) c).2
    (loadXMLChild V (QXmlStreamReader.mk (some (XmlEvent.StartElement n a)) evs false) c).1
    hle]
  show loadXMLLoop V (evs.length + 1 + 1) _ c = _
  simp [loadXMLLoop, QXmlStreamReader.readNextStartElement,
    QXmlStreamReader.readNextStartElementAux]

/-- The loop ends on the end tag of the channel element. -/
theorem loadXMLWhile_end (V : Vocabulary) (t0 : Option XmlEvent) (evs : List XmlEvent)
    (c : QLCInputChannel) :
    loadXMLWhile V (QXmlStreamReader.mk t0 (XmlEvent.EndElement :: evs) false) c =
      (c, (QXmlStreamReader.mk (some XmlEvent.EndElement) evs false)) := by
  simp [loadXMLWhile, loadXMLLoop, QXmlStreamReader.readNextStartElement,
    QXmlStreamReader.readNextStartElementAux]

/-- The loop ends at once after an error. -/
theorem loadXMLWhile_error (V : Vocabulary) (t0 : Option XmlEvent) (evs : List XmlEvent)
    (c : QLCInputChannel) :
    (loadXMLWhile V (QXmlStreamReader.mk t0 evs true) c).1 = c := by
  simp [loadXMLWhile, loadXMLLoop, QXmlStreamReader.readNextStartElement]

/-- The loop ends when the events run out. -/
theorem loadXMLWhile_nil (V : Vocabulary) (t0 : Option XmlEvent) (e : Bool)
    (c : QLCInputChannel) :
    (loadXMLWhile V (QXmlStreamReader.mk t0 [] e) c).1 = c := by
  cases e <;>
  simp [loadXMLWhile, loadXMLLoop, QXmlStreamReader.readNextStartElement,
    QXmlStreamReader.readNextStartElementAux]

/-- Character data between children is passed over. -/
theorem loadXMLWhile_characters (V : Vocabulary) (t0 t1 : Option XmlEvent) (t : String)
    (evs : List XmlEvent) (c : QLCInputChannel) :
    loadXMLWhile V (QXmlStreamReader.mk t0 (XmlEvent.Characters t :: evs) false) c =
      loadXMLWhile V (QXmlStreamReader.mk t1 evs false) c := by
  rw [loadXMLWhile_eq_loop V (evs.length + 2) (QXmlStreamReader.mk t1 evs false) c
    (Nat.lt_succ_of_le (Nat.le_succ _))]
  show loadXMLLoop V (evs.length + 1 + 1) _ c = _
  simp [loadXMLLoop, QXmlStreamReader.readNextStartElement,
    QXmlStreamReader.readNextStartElementAux]

/-- Comments between children are passed over. -/
theorem loadXMLWhile_comment (V : Vocabulary) (t0 t1 : Option XmlEvent)
    (evs : List XmlEvent) (c : QLCInputChannel) :
    loadXMLWhile V (QXmlStreamReader.mk t0 (XmlEvent.Comment :: evs) false) c =
      loadXMLWhile V (QXmlStreamReader.mk t1 evs false) c := by
  rw [loadXMLWhile_eq_loop V (evs.length + 2) (QXmlStreamReader.mk t1 evs false) c
    (Nat.lt_succ_of_le (Nat.le_succ _))]
  show loadXMLLoop V (evs.length + 1 + 1) _ c = _
  simp [loadXMLLoop, QXmlStreamReader.readNextStartElement,
    QXmlStreamReader.readNextStartElementAux]

end QLCInputChannel


/-! ## The vocabulary -/

theorem Vocabulary.TagsDistinct.ne (V : Vocabulary) (h : V.TagsDistinct) :
    (V.KXMLQLCInputChannelName ≠ V.KXMLQLCInputChannelType ∧
     V.KXMLQLCInputChannelName ≠ V.KXMLQLCInputChannelExtraPress ∧
     V.KXMLQLCInputChannelName ≠ V.KXMLQLCInputChannelMovement ∧
     V.KXMLQLCInputChannelName ≠ V.KXMLQLCInputChannelFeedbacks) ∧
    (V.KXMLQLCInputChannelType ≠ V.KXMLQLCInputChannelExtraPress ∧
     V.KXMLQLCInputChannelType ≠ V.KXMLQLCInputChannelMovement ∧
     V.KXMLQLCInputChannelType ≠ V.KXMLQLCInputChannelFeedbacks) ∧
    (V.KXMLQLCInputChannelExtraPress ≠ V.KXMLQLCInputChannelMovement ∧
     V.KXMLQLCInputChannelExtraPress ≠ V.KXMLQLCInputChannelFeedbacks) ∧
    V.KXMLQLCInputChannelMovement ≠ V.KXMLQLCInputChannelFeedbacks ∧
    V.KXMLQLCInputChannelLowerValue ≠ V.KXMLQLCInputChannelUpperValue := by
  simpa [Vocabulary.TagsDistinct, Vocabulary.childTags, and_assoc] using h

namespace QLCInputChannel

theorem stringToType_typeToString (V : Vocabulary) (hd : V.TypesDistinct)
    (hn : V.NoneDedicated) (t : ChannelType) : stringToType V (typeToString V t) = t := by
  simp only [Vocabulary.TypesDistinct, Vocabulary.NoneDedicated, Vocabulary.typeTokens,
    List.nodup_cons, List.mem_cons, List.mem_singleton, not_or, List.not_mem_nil,
    not_false_eq_true, List.nodup_nil, and_true] at hd hn
  obtain ⟨⟨b1, b2, b3, b4, b5, b6⟩, ⟨k1, k2, k3, k4, k5⟩, ⟨e1, e2, e3, e4⟩, ⟨s1, s2, s3⟩,
    ⟨u1, u2⟩, d1⟩ := hd
  obtain ⟨n1, n2, n3, n4, n5, n6, n7⟩ := hn
  cases t <;> simp only [stringToType, typeToString] <;> split_ifs <;> simp_all

end QLCInputChannel


/-! ## What the writer records -/

namespace QXmlStreamWriter

theorem put_open (evs : List XmlEvent) (st : Option (String × List (String × String)))
    (e : XmlEvent) :
    (QXmlStreamWriter.mk (some (Device.mk true)) evs st).put e =
      QXmlStreamWriter.mk (some (Device.mk true)) (evs ++ [e]) st := by
  simp [put]

theorem writeTextElement_open (evs : List XmlEvent) (tag text : String) :
    (QXmlStreamWriter.mk (some (Device.mk true)) evs none).writeTextElement tag text =
      QXmlStreamWriter.mk (some (Device.mk true)) (evs ++ textElement tag text) none := by
  by_cases h : text = "" <;>
    simp [writeTextElement, writeStartElement, writeCharacters, writeEndElement, closeStartTag,
      put, textElement, h]

theorem writeTextElement_tag (evs : List XmlEvent) (n : String) (a : List (String × String))
    (tag text : String) :
    (QXmlStreamWriter.mk (some (Device.mk true)) evs (some (n, a))).writeTextElement tag text =
      QXmlStreamWriter.mk (some (Device.mk true))
        (evs ++ XmlEvent.StartElement n a :: textElement tag text) none := by
  by_cases h : text = "" <;>
    simp [writeTextElement, writeStartElement, writeCharacters, writeEndElement, closeStartTag,
      put, textElement, h]

end QXmlStreamWriter

namespace QLCInputChannel

/-- The events `saveXML` writes through a fresh writer, child by child. -/
theorem savedEvents_eq (V : Vocabulary) (c : QLCInputChannel) (n : Nat) :
    savedEvents V c n =
      XmlEvent.StartElement V.KXMLQLCInputChannel
          [(V.KXMLQLCInputChannelNumber, QString.number n)] ::
        (textElement V.KXMLQLCInputChannelName c.m_name ++
          (textElement V.KXMLQLCInputChannelType (typeToString V c.m_type) ++
            ((if c.m_sendExtraPress = true then
                textElement V.KXMLQLCInputChannelExtraPress "True" else []) ++
              (movementOrFeedbacks V c ++ [XmlEvent.EndElement])))) := by
  simp only [movementOrFeedbacks, savedEvents, saveXML, freshWriter, QXmlStreamWriter.writeStartElement,
    QXmlStreamWriter.closeStartTag, QXmlStreamWriter.writeAttribute, List.nil_append,
    QXmlStreamWriter.writeTextElement_tag, QXmlStreamWriter.writeTextElement_open,
    sendExtraPress, type, movementType, movementSensitivity, lowerValue, upperValue,
    reduceCtorEq, if_false]
  by_cases he : c.m_sendExtraPress = true <;>
  by_cases hr : (c.m_type = ChannelType.Slider ∨ c.m_type = ChannelType.Knob) ∧
      c.m_movementType = MovementType.Relative <;>
  by_cases hn : c.m_type = ChannelType.Encoder <;>
  by_cases hB : c.m_type = ChannelType.Button <;>
  by_cases hb : c.m_type = ChannelType.Button ∧ (c.m_lower ≠ 0 ∨ c.m_upper ≠ UCHAR_MAX) <;>
  by_cases hl : c.m_lower ≠ 0 <;>
  by_cases hu : c.m_upper ≠ UCHAR_MAX <;>
  by_cases hv : V.KXMLQLCInputChannelRelative = "" <;>
  simp [he, hr, hn, hB, hb, hl, hu, hv, QXmlStreamWriter.writeTextElement_open,
    QXmlStreamWriter.writeStartElement, QXmlStreamWriter.closeStartTag,
    QXmlStreamWriter.writeAttribute, QXmlStreamWriter.writeCharacters,
    QXmlStreamWriter.writeEndElement, QXmlStreamWriter.put]

end QLCInputChannel


namespace QLCInputChannel

/-! ## The loop body, child by child -/

theorem loadXMLChild_name (V : Vocabulary) (a : List (String × String))
    (evs : List XmlEvent) (c : QLCInputChannel) :
    loadXMLChild V (QXmlStreamReader.mk
        (some (XmlEvent.StartElement V.KXMLQLCInputChannelName a)) evs false) c =
      (c.setName (QXmlStreamReader.readElementTextAux evs "").1,
        (QXmlStreamReader.readElementTextAux evs "").2) := by
  simp [loadXMLChild, QXmlStreamReader.name, QXmlStreamReader.readElementText,
    QXmlStreamReader.isStartElement]

theorem loadXMLChild_type (V : Vocabulary) (hV : V.TagsDistinct) (a : List (String × String))
    (evs : List XmlEvent) (c : QLCInputChannel) :
    loadXMLChild V (QXmlStreamReader.mk
        (some (XmlEvent.StartElement V.KXMLQLCInputChannelType a)) evs false) c =
      (c.setType (stringToType V (QXmlStreamReader.readElementTextAux evs "").1),
        (QXmlStreamReader.readElementTextAux evs "").2) := by
  obtain ⟨⟨h1, -⟩, -⟩ := hV.ne
  simp [loadXMLChild, QXmlStreamReader.name, QXmlStreamReader.readElementText,
    QXmlStreamReader.isStartElement, Ne.symm h1]

theorem loadXMLChild_extraPress (V : Vocabulary) (hV : V.TagsDistinct)
    (a : List (String × String)) (evs : List XmlEvent) (c : QLCInputChannel) :
    loadXMLChild V (QXmlStreamReader.mk
        (some (XmlEvent.StartElement V.KXMLQLCInputChannelExtraPress a)) evs false) c =
      (c.setSendExtraPress true, (QXmlStreamReader.readElementTextAux evs "").2) := by
  obtain ⟨⟨-, h1, -⟩, ⟨h2, -⟩, -⟩ := hV.ne
  simp [loadXMLChild, QXmlStreamReader.name, QXmlStreamReader.readElementText,
    QXmlStreamReader.isStartElement, Ne.symm h1, Ne.symm h2]

theorem loadXMLChild_movement (V : Vocabulary) (hV : V.TagsDistinct)
    (a : List (String × String)) (evs : List XmlEvent) (c : QLCInputChannel) :
    loadXMLChild V (QXmlStreamReader.mk
        (some (XmlEvent.StartElement V.KXMLQLCInputChannelMovement a)) evs false) c =
      (if (QXmlStreamReader.readElementTextAux evs "").1 = V.KXMLQLCInputChannelRelative then
          (if hasAttribute a V.KXMLQLCInputChannelSensitivity then
              c.setMovementSensitivity
                (QString.toInt (value a V.KXMLQLCInputChannelSensitivity))
            else c).setMovementType MovementType.Relative
        else
          (if hasAttribute a V.KXMLQLCInputChannelSensitivity then
              c.setMovementSensitivity
                (QString.toInt (value a V.KXMLQLCInputChannelSensitivity))
            else c),
        (QXmlStreamReader.readElementTextAux evs "").2) := by
  obtain ⟨⟨-, -, h1, -⟩, ⟨-, h2, -⟩, ⟨h3, -⟩, -⟩ := hV.ne
  simp [loadXMLChild, QXmlStreamReader.name, QXmlStreamReader.readElementText,
    QXmlStreamReader.isStartElement, QXmlStreamReader.attributes, Ne.symm h1, Ne.symm h2,
    Ne.symm h3]

theorem loadXMLChild_feedbacks (V : Vocabulary) (hV : V.TagsDistinct)
    (a : List (String × String)) (evs : List XmlEvent) (c : QLCInputChannel) :
    loadXMLChild V (QXmlStreamReader.mk
        (some (XmlEvent.StartElement V.KXMLQLCInputChannelFeedbacks a)) evs false) c =
      (c.setRange
          (if hasAttribute a V.KXMLQLCInputChannelLowerValue then
            uchar (QString.toUInt (value a V.KXMLQLCInputChannelLowerValue)) else 0)
          (if hasAttribute a V.KXMLQLCInputChannelUpperValue then
            uchar (QString.toUInt (value a V.KXMLQLCInputChannelUpperValue)) else UCHAR_MAX),
        QXmlStreamReader.skipCurrentElementAux evs 1) := by
  obtain ⟨⟨-, -, -, h1⟩, ⟨-, -, h2⟩, ⟨-, h3⟩, h4, -⟩ := hV.ne
  simp [loadXMLChild, QXmlStreamReader.name, QXmlStreamReader.skipCurrentElement,
    QXmlStreamReader.attributes, Ne.symm h1, Ne.symm h2, Ne.symm h3, Ne.symm h4]

theorem loadXMLChild_unknown (V : Vocabulary) (tag : String) (h : tag ∉ V.childTags)
    (a : List (String × String)) (evs : List XmlEvent) (c : QLCInputChannel) :
    loadXMLChild V (QXmlStreamReader.mk (some (XmlEvent.StartElement tag a)) evs false) c =
      (c, QXmlStreamReader.skipCurrentElementAux evs 1) := by
  simp only [Vocabulary.childTags, List.mem_cons, List.mem_singleton, not_or,
    List.not_mem_nil, not_false_eq_true, and_true] at h
  obtain ⟨h1, h2, h3, h4, h5⟩ := h
  simp [loadXMLChild, QXmlStreamReader.name, QXmlStreamReader.skipCurrentElement, h1, h2, h3,
    h4, h5]

/-! ## Text elements -/

theorem readElementTextAux_textElement (tag text : String) (rest : List XmlEvent) :
    ∃ a, textElement tag text ++ rest =
        XmlEvent.StartElement tag [] :: a ∧
      QXmlStreamReader.readElementTextAux a "" =
        (text, QXmlStreamReader.mk (some XmlEvent.EndElement) rest false) := by
  by_cases h : text = ""
  · exact ⟨XmlEvent.EndElement :: rest, by simp [textElement, h],
      by simp [QXmlStreamReader.readElementTextAux, h]⟩
  · exact ⟨XmlEvent.Characters text :: XmlEvent.EndElement :: rest, by simp [textElement, h],
      by simp [QXmlStreamReader.readElementTextAux]⟩

theorem loadXMLWhile_name (V : Vocabulary) (t0 : Option XmlEvent) (text : String)
    (rest : List XmlEvent) (c : QLCInputChannel) :
    loadXMLWhile V (QXmlStreamReader.mk t0
        (textElement V.KXMLQLCInputChannelName text ++ rest) false) c =
      loadXMLWhile V (QXmlStreamReader.mk (some XmlEvent.EndElement) rest false)
        (c.setName text) := by
  obtain ⟨a, h1, h2⟩ := readElementTextAux_textElement V.KXMLQLCInputChannelName text rest
  rw [h1, loadXMLWhile_start, loadXMLChild_name, h2]

theorem loadXMLWhile_type (V : Vocabulary) (hV : V.TagsDistinct) (t0 : Option XmlEvent)
    (text : String) (rest : List XmlEvent) (c : QLCInputChannel) :
    loadXMLWhile V (QXmlStreamReader.mk t0
        (textElement V.KXMLQLCInputChannelType text ++ rest) false) c =
      loadXMLWhile V (QXmlStreamReader.mk (some XmlEvent.EndElement) rest false)
        (c.setType (stringToType V text)) := by
  obtain ⟨a, h1, h2⟩ := readElementTextAux_textElement V.KXMLQLCInputChannelType text rest
  rw [h1, loadXMLWhile_start, loadXMLChild_type V hV, h2]

theorem loadXMLWhile_extraPress (V : Vocabulary) (hV : V.TagsDistinct) (t0 : Option XmlEvent)
    (text : String) (rest : List XmlEvent) (c : QLCInputChannel) :
    loadXMLWhile V (QXmlStreamReader.mk t0
        (textElement V.KXMLQLCInputChannelExtraPress text ++ rest) false) c =
      loadXMLWhile V (QXmlStreamReader.mk (some XmlEvent.EndElement) rest false)
        (c.setSendExtraPress true) := by
  obtain ⟨a, h1, h2⟩ :=
    readElementTextAux_textElement V.KXMLQLCInputChannelExtraPress text rest
  rw [h1, loadXMLWhile_start, loadXMLChild_extraPress V hV, h2]

end QLCInputChannel


namespace QLCInputChannel

/-! ## Save, then load -/

theorem loadXML_channel (V : Vocabulary) (a : List (String × String)) (evs : List XmlEvent)
    (c : QLCInputChannel) :
    loadXML V c (QXmlStreamReader.mk (some (XmlEvent.StartElement V.KXMLQLCInputChannel a))
        evs false) =
      (true, loadXMLWhile V (QXmlStreamReader.mk
        (some (XmlEvent.StartElement V.KXMLQLCInputChannel a)) evs false) c) := by
  simp [loadXML, QXmlStreamReader.isStartElement, QXmlStreamReader.name]

theorem saveThenLoad_eq_while (V : Vocabulary) (hV : V.TagsDistinct) (c : QLCInputChannel)
    (hst : stringToType V (typeToString V c.m_type) = c.m_type) (n : Nat) :
    saveThenLoad V c n =
      (true, (loadXMLWhile V (QXmlStreamReader.mk (some XmlEvent.EndElement)
          (movementOrFeedbacks V c ++ [XmlEvent.EndElement]) false)
        (QLCInputChannel.mk c.m_name c.m_type MovementType.Absolute
          (if c.m_type = ChannelType.Encoder then 1 else 20) c.m_sendExtraPress 0
          UCHAR_MAX)).1) := by
  unfold saveThenLoad
  rw [savedEvents_eq]
  simp only [QXmlStreamReader.ofEvents, QXmlStreamReader.readNextStartElement,
    QXmlStreamReader.readNextStartElementAux, Bool.false_eq_true, if_false, loadXML_channel]
  rw [loadXMLWhile_name, loadXMLWhile_type V hV, hst]
  by_cases he : c.m_sendExtraPress = true
  · have e : ((QLCInputChannel.ctor.setName c.m_name).setType c.m_type).setSendExtraPress true =
        QLCInputChannel.mk c.m_name c.m_type MovementType.Absolute
          (if c.m_type = ChannelType.Encoder then 1 else 20) c.m_sendExtraPress 0
          UCHAR_MAX := by
      simp only [setName, setType, setSendExtraPress, QLCInputChannel.ctor]
      split_ifs <;> simp [he]
    rw [if_pos he, loadXMLWhile_extraPress V hV, e]
  · have e : (QLCInputChannel.ctor.setName c.m_name).setType c.m_type =
        QLCInputChannel.mk c.m_name c.m_type MovementType.Absolute
          (if c.m_type = ChannelType.Encoder then 1 else 20) c.m_sendExtraPress 0
          UCHAR_MAX := by
      simp only [setName, setType, QLCInputChannel.ctor]
      split_ifs <;> simp [he]
    rw [if_neg he, List.nil_append, e]

end QLCInputChannel


namespace QLCInputChannel

theorem hasAttribute_singleton (k v q : String) :
    hasAttribute [(k, v)] q = decide (k = q) := by
  simp only [hasAttribute, List.any_cons, List.any_nil, Bool.or_false]
  rfl

theorem value_head (k v : String) (rest : List (String × String)) :
    value ((k, v) :: rest) k = v := by
  simp [value]

/-- A round trip gives the persisted form of the record. -/
theorem saveThenLoad_eq (V : Vocabulary) (hV : V.WellFormed) (c : QLCInputChannel)
    (hc : c.InRange) (n : Nat) : saveThenLoad V c n = (true, c.persisted) := by
  obtain ⟨hd, hn, ht, hr⟩ := hV
  obtain ⟨s1, s2, l1, u1⟩ := hc
  have hlu : V.KXMLQLCInputChannelLowerValue ≠ V.KXMLQLCInputChannelUpperValue := ht.2
  rw [saveThenLoad_eq_while V ht c (stringToType_typeToString V hd hn c.m_type)]
  by_cases hrel : (c.m_type = ChannelType.Slider ∨ c.m_type = ChannelType.Knob) ∧
      c.m_movementType = MovementType.Relative
  · have hne : c.m_type ≠ ChannelType.Encoder := by
      rcases hrel.1 with h | h <;> rw [h] <;> decide
    have hnb : c.m_type ≠ ChannelType.Button := by
      rcases hrel.1 with h | h <;> rw [h] <;> decide
    simp only [movementOrFeedbacks, if_pos hrel, if_neg hr, List.cons_append,
      List.nil_append, loadXMLWhile_start, loadXMLChild_movement V ht,
      QXmlStreamReader.readElementTextAux, loadXMLWhile_end, hasAttribute_singleton,
      value_head, toInt_number _ s1 s2, persisted, if_neg hne, if_neg hnb]
    simp [setMovementSensitivity, setMovementType]
  · by_cases henc : c.m_type = ChannelType.Encoder
    · have hnb : c.m_type ≠ ChannelType.Button := by rw [henc]; decide
      simp only [movementOrFeedbacks, if_neg hrel, if_pos henc, List.cons_append,
        List.nil_append, loadXMLWhile_start, loadXMLChild_movement V ht,
        QXmlStreamReader.readElementTextAux, loadXMLWhile_end, hasAttribute_singleton,
        value_head, toInt_number _ s1 s2, persisted, if_neg hnb]
      simp [setMovementSensitivity, Ne.symm hr]
    · by_cases hb : c.m_type = ChannelType.Button
      · by_cases hl : c.m_lower = 0 <;> by_cases hu : c.m_upper = UCHAR_MAX
        · simp [movementOrFeedbacks, hrel, henc, hb, hl, hu, loadXMLWhile_end, persisted]
        · simp [movementOrFeedbacks, hrel, henc, hb, hl, hu, loadXMLWhile_end, persisted,
            loadXMLWhile_start, loadXMLChild_feedbacks V ht, hasAttribute_singleton,
            value_head, uchar_toUInt_number _ u1, QXmlStreamReader.skipCurrentElementAux,
            setRange, Ne.symm hlu]
        · simp [movementOrFeedbacks, hrel, henc, hb, hl, hu, loadXMLWhile_end, persisted,
            loadXMLWhile_start, loadXMLChild_feedbacks V ht, hasAttribute_singleton,
            value_head, uchar_toUInt_number _ l1, QXmlStreamReader.skipCurrentElementAux,
            setRange, hlu]
        · simp [movementOrFeedbacks, hrel, henc, hb, hl, hu, loadXMLWhile_end, persisted,
            loadXMLWhile_start, loadXMLChild_feedbacks V ht, hasAttribute, value,
            uchar_toUInt_number _ l1, uchar_toUInt_number _ u1,
            QXmlStreamReader.skipCurrentElementAux, setRange, hlu, Ne.symm hlu]
      · simp [movementOrFeedbacks, hrel, henc, hb, loadXMLWhile_end, persisted]

/-- A round trip reproduces exactly the persistent records. -/
theorem persisted_eq_iff (c : QLCInputChannel) : c.persisted = c ↔ c.Persistent := by
  obtain ⟨nm, ty, mt, ms, ep, lo, up⟩ := c
  simp only [persisted, Persistent, QLCInputChannel.mk.injEq, true_and]
  cases ty <;> cases mt <;> simp <;> omega

end QLCInputChannel


/-! ## Readers over trees -/

theorem eventsOfList_cons (n : XmlNode) (ns : List XmlNode) :
    XmlNode.eventsOfList (n :: ns) = n.events ++ XmlNode.eventsOfList ns := by
  simp [XmlNode.eventsOfList]

mutual
/-- Skipping passes over a whole node without a change of depth. -/
theorem skipCurrentElementAux_node : ∀ (n : XmlNode) (rest : List XmlEvent) (d : Nat),
    QXmlStreamReader.skipCurrentElementAux (n.events ++ rest) (d + 1) =
      QXmlStreamReader.skipCurrentElementAux rest (d + 1)
  | XmlNode.text t, rest, d => by
    simp [XmlNode.events, QXmlStreamReader.skipCurrentElementAux]
  | XmlNode.comment, rest, d => by
    simp [XmlNode.events, QXmlStreamReader.skipCurrentElementAux]
  | XmlNode.element n a cs, rest, d => by
    have h := skipCurrentElementAux_nodes cs (XmlEvent.EndElement :: rest) (d + 1)
    have e : (XmlNode.element n a cs).events ++ rest =
        XmlEvent.StartElement n a :: (XmlNode.eventsOfList cs ++ XmlEvent.EndElement :: rest) := by
      simp [XmlNode.events]
    rw [e]
    simp only [QXmlStreamReader.skipCurrentElementAux]
    rw [h]
    simp [QXmlStreamReader.skipCurrentElementAux]
/-- Skipping passes over a sequence of nodes without a change of depth. -/
theorem skipCurrentElementAux_nodes : ∀ (ns : List XmlNode) (rest : List XmlEvent) (d : Nat),
    QXmlStreamReader.skipCurrentElementAux (XmlNode.eventsOfList ns ++ rest) (d + 1) =
      QXmlStreamReader.skipCurrentElementAux rest (d + 1)
  | [], rest, d => by simp [XmlNode.eventsOfList]
  | n :: ns, rest, d => by
    rw [eventsOfList_cons, List.append_assoc, skipCurrentElementAux_node n,
      skipCurrentElementAux_nodes ns]
end

/-- Skipping the current element lands on its end tag. -/
theorem skipCurrentElementAux_children (kids : List XmlNode) (rest : List XmlEvent) :
    QXmlStreamReader.skipCurrentElementAux
        (XmlNode.eventsOfList kids ++ XmlEvent.EndElement :: rest) 1 =
      QXmlStreamReader.mk (some XmlEvent.EndElement) rest false := by
  rw [skipCurrentElementAux_nodes kids (XmlEvent.EndElement :: rest) 0]
  simp [QXmlStreamReader.skipCurrentElementAux]

/-- Reading the text of an element either lands on its end tag or, at the first child
element, raises an error; which of the two and the text read depend on the content only. -/
theorem readElementTextAux_children (kids : List XmlNode) (acc : String) :
    ∃ text, (∀ rest, QXmlStreamReader.readElementTextAux
        (XmlNode.eventsOfList kids ++ XmlEvent.EndElement :: rest) acc =
          (text, QXmlStreamReader.mk (some XmlEvent.EndElement) rest false)) ∨
      (∀ rest, ∃ p, QXmlStreamReader.readElementTextAux
        (XmlNode.eventsOfList kids ++ XmlEvent.EndElement :: rest) acc =
          (text, QXmlStreamReader.invalid p)) := by
  induction kids generalizing acc with
  | nil =>
    exact ⟨acc, Or.inl (fun rest => by
      simp [XmlNode.eventsOfList, QXmlStreamReader.readElementTextAux])⟩
  | cons k ks ih =>
    cases k with
    | text t =>
      obtain ⟨text, h⟩ := ih (acc ++ t)
      refine ⟨text, ?_⟩
      simpa [eventsOfList_cons, XmlNode.events, QXmlStreamReader.readElementTextAux] using h
    | comment =>
      obtain ⟨text, h⟩ := ih acc
      refine ⟨text, ?_⟩
      simpa [eventsOfList_cons, XmlNode.events, QXmlStreamReader.readElementTextAux] using h
    | element n a cs =>
      exact ⟨acc, Or.inr (fun rest => ⟨_, by
        simp [eventsOfList_cons, XmlNode.events, QXmlStreamReader.readElementTextAux]; rfl⟩)⟩

namespace QLCInputChannel

/-- The loop does not look at the event the reader is positioned on. -/
theorem loadXMLWhile_tokenType (V : Vocabulary) (t0 t1 : Option XmlEvent)
    (p : List XmlEvent) (e : Bool) (c : QLCInputChannel) :
    loadXMLWhile V (QXmlStreamReader.mk t0 p e) c =
      loadXMLWhile V (QXmlStreamReader.mk t1 p e) c := by
  simp [loadXMLWhile, loadXMLLoop, QXmlStreamReader.readNextStartElement]

/-- The loop body on a child element with its content: the record after it depends on the
child only, and the reader either lands on the end tag of the child or has raised an error. -/
theorem loadXMLChild_children (V : Vocabulary) (tag : String) (a : List (String × String))
    (kids : List XmlNode) (c : QLCInputChannel) :
    (∀ r1 r2, (loadXMLChild V (QXmlStreamReader.mk (some (XmlEvent.StartElement tag a))
        (XmlNode.eventsOfList kids ++ XmlEvent.EndElement :: r1) false) c).1 =
      (loadXMLChild V (QXmlStreamReader.mk (some (XmlEvent.StartElement tag a))
        (XmlNode.eventsOfList kids ++ XmlEvent.EndElement :: r2) false) c).1) ∧
    ((∀ rest, (loadXMLChild V (QXmlStreamReader.mk (some (XmlEvent.StartElement tag a))
        (XmlNode.eventsOfList kids ++ XmlEvent.EndElement :: rest) false) c).2 =
          QXmlStreamReader.mk (some XmlEvent.EndElement) rest false) ∨
      (∀ rest, (loadXMLChild V (QXmlStreamReader.mk (some (XmlEvent.StartElement tag a))
        (XmlNode.eventsOfList kids ++ XmlEvent.EndElement :: rest) false) c).2.hasError =
          true)) := by
  obtain ⟨text, ht⟩ := readElementTextAux_children kids ""
  unfold loadXMLChild
  simp only [QXmlStreamReader.name, QXmlStreamReader.attributes,
    QXmlStreamReader.readElementText, QXmlStreamReader.isStartElement,
    QXmlStreamReader.skipCurrentElement, if_true, Bool.false_eq_true, if_false,
    skipCurrentElementAux_children]
  split_ifs
  all_goals
    first
    | exact ⟨fun _ _ => rfl, Or.inl (fun _ => rfl)⟩
    | (rcases ht with h | h
       · exact ⟨fun r1 r2 => by rw [h r1, h r2], Or.inl (fun rest => by rw [h rest])⟩
       · exact ⟨fun r1 r2 => by
             obtain ⟨p1, hp1⟩ := h r1
             obtain ⟨p2, hp2⟩ := h r2
             rw [hp1, hp2],
           Or.inr (fun rest => by
             obtain ⟨p, hp⟩ := h rest
             rw [hp]
             rfl)⟩)

/-- The loop ends at once on a reader that has raised an error. -/
theorem loadXMLWhile_hasError (V : Vocabulary) (root : QXmlStreamReader)
    (h : root.hasError = true) (c : QLCInputChannel) : (loadXMLWhile V root c).1 = c := by
  simp [loadXMLWhile, loadXMLLoop, QXmlStreamReader.readNextStartElement, h]

/-- Removing the children `loadXML` does not recognise changes nothing in the record. -/
theorem loadXMLWhile_removeUnknown (V : Vocabulary) (children : List XmlNode)
    (rest : List XmlEvent) (t0 t1 : Option XmlEvent) (c : QLCInputChannel) :
    (loadXMLWhile V (QXmlStreamReader.mk t0 (XmlNode.eventsOfList children ++ rest)
        false) c).1 =
      (loadXMLWhile V (QXmlStreamReader.mk t1
        (XmlNode.eventsOfList (removeUnknown V children) ++ rest) false) c).1 := by
  induction children generalizing t0 t1 c with
  | nil =>
    simp only [removeUnknown, List.filter_nil]
    rw [loadXMLWhile_tokenType V t0 t1]
  | cons k ks ih =>
    cases k with
    | text t =>
      have hk : removeUnknown V (XmlNode.text t :: ks) = XmlNode.text t :: removeUnknown V ks := by
        simp [removeUnknown, XmlNode.isUnknownChild]
      rw [hk, eventsOfList_cons, eventsOfList_cons]
      simp only [XmlNode.events, List.cons_append, List.nil_append]
      rw [loadXMLWhile_characters V t0 t0, loadXMLWhile_characters V t1 t1]
      exact ih t0 t1 c
    | comment =>
      have hk : removeUnknown V (XmlNode.comment :: ks) = XmlNode.comment :: removeUnknown V ks := by
        simp [removeUnknown, XmlNode.isUnknownChild]
      rw [hk, eventsOfList_cons, eventsOfList_cons]
      simp only [XmlNode.events, List.cons_append, List.nil_append]
      rw [loadXMLWhile_comment V t0 t0, loadXMLWhile_comment V t1 t1]
      exact ih t0 t1 c
    | element tag a kids =>
      by_cases hu : tag ∈ V.childTags
      · have hk : removeUnknown V (XmlNode.element tag a kids :: ks) =
            XmlNode.element tag a kids :: removeUnknown V ks := by
          simp [removeUnknown, XmlNode.isUnknownChild, hu]
        rw [hk, eventsOfList_cons, eventsOfList_cons]
        simp only [XmlNode.events, List.cons_append, List.append_assoc, List.nil_append]
        rw [loadXMLWhile_start, loadXMLWhile_start]
        obtain ⟨h1, h2⟩ := loadXMLChild_children V tag a kids c
        rw [h1 (XmlNode.eventsOfList ks ++ rest)
          (XmlNode.eventsOfList (removeUnknown V ks) ++ rest)]
        rcases h2 with h | h
        · rw [h, h]
          exact ih _ _ _
        · rw [loadXMLWhile_hasError V _ (h _), loadXMLWhile_hasError V _ (h _)]
      · have hk : removeUnknown V (XmlNode.element tag a kids :: ks) = removeUnknown V ks := by
          simp [removeUnknown, XmlNode.isUnknownChild, hu]
        rw [hk, eventsOfList_cons]
        simp only [XmlNode.events, List.cons_append, List.append_assoc, List.nil_append]
        rw [loadXMLWhile_start, loadXMLChild_unknown V tag hu, skipCurrentElementAux_children]
        exact ih _ _ c

end QLCInputChannel

/-! ## Children read in document order -/

theorem eventsOfList_append (xs ys : List XmlNode) :
    XmlNode.eventsOfList (xs ++ ys) = XmlNode.eventsOfList xs ++ XmlNode.eventsOfList ys := by
  induction xs with
  | nil => simp [XmlNode.eventsOfList]
  | cons x xs ih => simp [eventsOfList_cons, ih]

/-- The text `readElementText` returns is the text read of the content. -/
theorem readElementTextAux_textRead (kids : List XmlNode) (acc : String)
    (rest : List XmlEvent) :
    (QXmlStreamReader.readElementTextAux
      (XmlNode.eventsOfList kids ++ XmlEvent.EndElement :: rest) acc).1 =
      acc ++ XmlNode.textRead kids := by
  induction kids generalizing acc with
  | nil => simp [XmlNode.eventsOfList, QXmlStreamReader.readElementTextAux, XmlNode.textRead]
  | cons k ks ih =>
    cases k with
    | text t =>
      have e : XmlNode.eventsOfList (XmlNode.text t :: ks) ++ XmlEvent.EndElement :: rest =
          XmlEvent.Characters t :: (XmlNode.eventsOfList ks ++ XmlEvent.EndElement :: rest) := by
        simp [eventsOfList_cons, XmlNode.events]
      rw [e]
      simp only [QXmlStreamReader.readElementTextAux, XmlNode.textRead]
      rw [ih, String.append_assoc]
    | comment =>
      have e : XmlNode.eventsOfList (XmlNode.comment :: ks) ++ XmlEvent.EndElement :: rest =
          XmlEvent.Comment :: (XmlNode.eventsOfList ks ++ XmlEvent.EndElement :: rest) := by
        simp [eventsOfList_cons, XmlNode.events]
      rw [e]
      simp only [QXmlStreamReader.readElementTextAux, XmlNode.textRead]
      rw [ih]
    | element n a cs =>
      simp [eventsOfList_cons, XmlNode.events, QXmlStreamReader.readElementTextAux,
        XmlNode.textRead]

/-- On a content without child elements `readElementText` lands on the end tag. -/
theorem readElementTextAux_lands (kids : List XmlNode)
    (h : kids.all (fun k => !k.isElement) = true) (acc : String) (rest : List XmlEvent) :
    (QXmlStreamReader.readElementTextAux
      (XmlNode.eventsOfList kids ++ XmlEvent.EndElement :: rest) acc).2 =
      QXmlStreamReader.mk (some XmlEvent.EndElement) rest false := by
  induction kids generalizing acc with
  | nil => simp [XmlNode.eventsOfList, QXmlStreamReader.readElementTextAux]
  | cons k ks ih =>
    simp only [List.all_cons, Bool.and_eq_true] at h
    cases k with
    | text t =>
      have e : XmlNode.eventsOfList (XmlNode.text t :: ks) ++ XmlEvent.EndElement :: rest =
          XmlEvent.Characters t :: (XmlNode.eventsOfList ks ++ XmlEvent.EndElement :: rest) := by
        simp [eventsOfList_cons, XmlNode.events]
      rw [e]
      simp only [QXmlStreamReader.readElementTextAux]
      exact ih h.2 _
    | comment =>
      have e : XmlNode.eventsOfList (XmlNode.comment :: ks) ++ XmlEvent.EndElement :: rest =
          XmlEvent.Comment :: (XmlNode.eventsOfList ks ++ XmlEvent.EndElement :: rest) := by
        simp [eventsOfList_cons, XmlNode.events]
      rw [e]
      simp only [QXmlStreamReader.readElementTextAux]
      exact ih h.2 _
    | element n a cs => simp [XmlNode.isElement] at h

namespace QLCInputChannel

/-- A child that reads cleanly leaves the reader on its end tag. -/
theorem loadXMLChild_lands (V : Vocabulary) (tag : String) (a : List (String × String))
    (kids : List XmlNode) (h : (XmlNode.element tag a kids).readsCleanly V = true)
    (rest : List XmlEvent) (c : QLCInputChannel) :
    (loadXMLChild V (QXmlStreamReader.mk (some (XmlEvent.StartElement tag a))
      (XmlNode.eventsOfList kids ++ XmlEvent.EndElement :: rest) false) c).2 =
      QXmlStreamReader.mk (some XmlEvent.EndElement) rest false := by
  simp only [XmlNode.readsCleanly, Vocabulary.textTags, Bool.or_eq_true, Bool.not_eq_true',
    decide_eq_false_iff_not, List.mem_cons, List.mem_singleton, List.not_mem_nil, or_false,
    not_or] at h
  unfold loadXMLChild
  simp only [QXmlStreamReader.name, QXmlStreamReader.attributes,
    QXmlStreamReader.readElementText, QXmlStreamReader.isStartElement,
    QXmlStreamReader.skipCurrentElement, if_true, Bool.false_eq_true, if_false,
    skipCurrentElementAux_children]
  split_ifs with h1 h2 h3 h4 h5 <;>
    first
    | rfl
    | (rcases h with h | h
       · exact absurd ‹tag = _› (by tauto)
       · exact readElementTextAux_lands kids h _ _)


/-- A property of the record that every turn of the loop keeps is kept by the loop. -/
theorem loadXMLLoop_invariant (V : Vocabulary) (P : QLCInputChannel → Prop)
    (hchild : ∀ root c, P c → P (loadXMLChild V root c).1) (fuel : Nat)
    (root : QXmlStreamReader) (c : QLCInputChannel) (h : P c) :
    P (loadXMLLoop V fuel root c).1 := by
  induction fuel generalizing root c with
  | zero => exact h
  | succ fuel ih =>
    unfold loadXMLLoop
    split_ifs
    · exact ih _ _ (hchild _ _ h)
    · exact h

/-- A property of the record that the loop body keeps on every direct child of an element is
kept by the loop over these children. -/
theorem loadXMLWhile_invariant (V : Vocabulary) (P : QLCInputChannel → Prop)
    (children : List XmlNode)
    (hchild : ∀ tag a kids, XmlNode.element tag a kids ∈ children → ∀ c rest, P c →
      P (loadXMLChild V (QXmlStreamReader.mk (some (XmlEvent.StartElement tag a))
        (XmlNode.eventsOfList kids ++ XmlEvent.EndElement :: rest) false) c).1)
    (c : QLCInputChannel) (t0 : Option XmlEvent) (rest : List XmlEvent) (h : P c) :
    P (loadXMLWhile V (QXmlStreamReader.mk t0
      (XmlNode.eventsOfList children ++ XmlEvent.EndElement :: rest) false) c).1 := by
  induction children generalizing c t0 with
  | nil =>
    simp only [XmlNode.eventsOfList, List.nil_append, loadXMLWhile_end]
    exact h
  | cons k ks ih =>
    have hks : ∀ tag a kids, XmlNode.element tag a kids ∈ ks → ∀ c rest, P c →
        P (loadXMLChild V (QXmlStreamReader.mk (some (XmlEvent.StartElement tag a))
          (XmlNode.eventsOfList kids ++ XmlEvent.EndElement :: rest) false) c).1 :=
      fun tag a kids hm => hchild tag a kids (List.mem_cons_of_mem _ hm)
    cases k with
    | text t =>
      have e : XmlNode.eventsOfList (XmlNode.text t :: ks) ++ XmlEvent.EndElement :: rest =
          XmlEvent.Characters t :: (XmlNode.eventsOfList ks ++ XmlEvent.EndElement :: rest) := by
        simp [eventsOfList_cons, XmlNode.events]
      rw [e, loadXMLWhile_characters V t0 t0]
      exact ih hks c t0 h
    | comment =>
      have e : XmlNode.eventsOfList (XmlNode.comment :: ks) ++ XmlEvent.EndElement :: rest =
          XmlEvent.Comment :: (XmlNode.eventsOfList ks ++ XmlEvent.EndElement :: rest) := by
        simp [eventsOfList_cons, XmlNode.events]
      rw [e, loadXMLWhile_comment V t0 t0]
      exact ih hks c t0 h
    | element tag a kids =>
      have e : XmlNode.eventsOfList (XmlNode.element tag a kids :: ks) ++
            XmlEvent.EndElement :: rest =
          XmlEvent.StartElement tag a :: (XmlNode.eventsOfList kids ++
            XmlEvent.EndElement :: (XmlNode.eventsOfList ks ++ XmlEvent.EndElement :: rest)) := by
        simp [eventsOfList_cons, XmlNode.events]
      rw [e, loadXMLWhile_start]
      have hP := hchild tag a kids (List.mem_cons_self _ _) c
        (XmlNode.eventsOfList ks ++ XmlEvent.EndElement :: rest) h
      obtain ⟨-, h2⟩ := loadXMLChild_children V tag a kids c
      rcases h2 with hl | he
      · rw [hl]
        exact ih hks _ _ hP
      · rw [loadXMLWhile_hasError V _ (he _)]
        exact hP

/-- The children before a given child are read cleanly, the child establishes a property of
the record, and the children after it keep the property: then the property holds after the
loop over all the children. -/
theorem loadXMLWhile_last_child (V : Vocabulary) (P : QLCInputChannel → Prop)
    (pre : List XmlNode) (tag : String) (a : List (String × String)) (kids post : List XmlNode)
    (hpre : pre.all (XmlNode.readsCleanly V) = true)
    (hx : ∀ c rest, P (loadXMLChild V (QXmlStreamReader.mk
      (some (XmlEvent.StartElement tag a))
      (XmlNode.eventsOfList kids ++ XmlEvent.EndElement :: rest) false) c).1)
    (hpost : ∀ tag a kids, XmlNode.element tag a kids ∈ post → ∀ c rest, P c →
      P (loadXMLChild V (QXmlStreamReader.mk (some (XmlEvent.StartElement tag a))
        (XmlNode.eventsOfList kids ++ XmlEvent.EndElement :: rest) false) c).1)
    (c : QLCInputChannel) (t0 : Option XmlEvent) (rest : List XmlEvent) :
    P (loadXMLWhile V (QXmlStreamReader.mk t0
      (XmlNode.eventsOfList (pre ++ XmlNode.element tag a kids :: post) ++
        XmlEvent.EndElement :: rest) false) c).1 := by
  induction pre generalizing c t0 with
  | nil =>
    have e : XmlNode.eventsOfList ([] ++ XmlNode.element tag a kids :: post) ++
          XmlEvent.EndElement :: rest =
        XmlEvent.StartElement tag a :: (XmlNode.eventsOfList kids ++
          XmlEvent.EndElement :: (XmlNode.eventsOfList post ++ XmlEvent.EndElement :: rest)) := by
      simp [eventsOfList_cons, XmlNode.events]
    rw [e, loadXMLWhile_start]
    have hP := hx c (XmlNode.eventsOfList post ++ XmlEvent.EndElement :: rest)
    obtain ⟨-, h2⟩ := loadXMLChild_children V tag a kids c
    rcases h2 with hl | he
    · rw [hl]
      exact loadXMLWhile_invariant V P post hpost _ _ rest hP
    · rw [loadXMLWhile_hasError V _ (he _)]
      exact hP
  | cons k ks ih =>
    simp only [List.all_cons, Bool.and_eq_true] at hpre
    cases k with
    | text t =>
      have e : XmlNode.eventsOfList (XmlNode.text t :: ks ++ XmlNode.element tag a kids :: post)
            ++ XmlEvent.EndElement :: rest =
          XmlEvent.Characters t :: (XmlNode.eventsOfList
            (ks ++ XmlNode.element tag a kids :: post) ++ XmlEvent.EndElement :: rest) := by
        simp [eventsOfList_cons, XmlNode.events]
      rw [e, loadXMLWhile_characters V t0 t0]
      exact ih hpre.2 c t0
    | comment =>
      have e : XmlNode.eventsOfList (XmlNode.comment :: ks ++ XmlNode.element tag a kids :: post)
            ++ XmlEvent.EndElement :: rest =
          XmlEvent.Comment :: (XmlNode.eventsOfList
            (ks ++ XmlNode.element tag a kids :: post) ++ XmlEvent.EndElement :: rest) := by
        simp [eventsOfList_cons, XmlNode.events]
      rw [e, loadXMLWhile_comment V t0 t0]
      exact ih hpre.2 c t0
    | element tag1 a1 kids1 =>
      have e : XmlNode.eventsOfList (XmlNode.element tag1 a1 kids1 :: ks ++
            XmlNode.element tag a kids :: post) ++ XmlEvent.EndElement :: rest =
          XmlEvent.StartElement tag1 a1 :: (XmlNode.eventsOfList kids1 ++
            XmlEvent.EndElement :: (XmlNode.eventsOfList
              (ks ++ XmlNode.element tag a kids :: post) ++ XmlEvent.EndElement :: rest)) := by
        simp [eventsOfList_cons, XmlNode.events]
      rw [e, loadXMLWhile_start, loadXMLChild_lands V tag1 a1 kids1 hpre.1]
      exact ih hpre.2 _ _


/-! ## What a child leaves alone -/

theorem setType_m_movementType (c : QLCInputChannel) (t : ChannelType) :
    (c.setType t).m_movementType = c.m_movementType := by
  unfold setType; split_ifs <;> rfl

theorem setType_m_sendExtraPress (c : QLCInputChannel) (t : ChannelType) :
    (c.setType t).m_sendExtraPress = c.m_sendExtraPress := by
  unfold setType; split_ifs <;> rfl

theorem setType_m_lower (c : QLCInputChannel) (t : ChannelType) :
    (c.setType t).m_lower = c.m_lower := by
  unfold setType; split_ifs <;> rfl

theorem setType_m_upper (c : QLCInputChannel) (t : ChannelType) :
    (c.setType t).m_upper = c.m_upper := by
  unfold setType; split_ifs <;> rfl

theorem setType_m_movementSensitivity (c : QLCInputChannel) (t : ChannelType) :
    (c.setType t).m_movementSensitivity = if t = ChannelType.Encoder then 1 else 20 := by
  unfold setType; split_ifs <;> rfl

/-- The loop body never clears the extra-press flag. -/
theorem loadXMLChild_sendExtraPress_true (V : Vocabulary) (root : QXmlStreamReader)
    (c : QLCInputChannel) (h : c.m_sendExtraPress = true) :
    (loadXMLChild V root c).1.m_sendExtraPress = true := by
  unfold loadXMLChild
  split_ifs <;>
    simp [setName, setType_m_sendExtraPress, setType_m_movementType, setSendExtraPress,
      setMovementSensitivity, setMovementType, setRange, h] <;> split_ifs <;> simp [h]

/-- The loop body never takes a relative movement back. -/
theorem loadXMLChild_movementType_relative (V : Vocabulary) (root : QXmlStreamReader)
    (c : QLCInputChannel) (h : c.m_movementType = MovementType.Relative) :
    (loadXMLChild V root c).1.m_movementType = MovementType.Relative := by
  unfold loadXMLChild
  split_ifs <;>
    simp [setName, setType_m_sendExtraPress, setType_m_movementType, setSendExtraPress,
      setMovementSensitivity, setMovementType, setRange, h]
  split_ifs <;> simp [h]

/-- A child that is no `extra-press` element leaves the flag as it was. -/
theorem loadXMLChild_sendExtraPress_same (V : Vocabulary) (tag : String)
    (h : tag ≠ V.KXMLQLCInputChannelExtraPress) (a : List (String × String))
    (evs : List XmlEvent) (c : QLCInputChannel) :
    (loadXMLChild V (QXmlStreamReader.mk (some (XmlEvent.StartElement tag a)) evs false)
      c).1.m_sendExtraPress = c.m_sendExtraPress := by
  unfold loadXMLChild
  simp only [QXmlStreamReader.name]
  split_ifs <;>
    simp_all [setName, setType_m_sendExtraPress, setType_m_movementType, setType_m_lower,
      setType_m_upper, setSendExtraPress, setMovementSensitivity, setMovementType, setRange]

/-- A child that is neither a `type` nor a `movement` element leaves the sensitivity as it
was. -/
theorem loadXMLChild_movementSensitivity_same (V : Vocabulary) (tag : String)
    (h1 : tag ≠ V.KXMLQLCInputChannelType) (h2 : tag ≠ V.KXMLQLCInputChannelMovement)
    (a : List (String × String)) (evs : List XmlEvent) (c : QLCInputChannel) :
    (loadXMLChild V (QXmlStreamReader.mk (some (XmlEvent.StartElement tag a)) evs false)
      c).1.m_movementSensitivity = c.m_movementSensitivity := by
  unfold loadXMLChild
  simp only [QXmlStreamReader.name]
  split_ifs <;>
    simp_all [setName, setType_m_sendExtraPress, setType_m_movementType, setType_m_lower,
      setType_m_upper, setSendExtraPress, setMovementSensitivity, setMovementType, setRange]

/-- A child that is no `feedbacks` element leaves the range as it was. -/
theorem loadXMLChild_range_same (V : Vocabulary) (tag : String)
    (h : tag ≠ V.KXMLQLCInputChannelFeedbacks) (a : List (String × String))
    (evs : List XmlEvent) (c : QLCInputChannel) :
    (loadXMLChild V (QXmlStreamReader.mk (some (XmlEvent.StartElement tag a)) evs false)
      c).1.m_lower = c.m_lower ∧
    (loadXMLChild V (QXmlStreamReader.mk (some (XmlEvent.StartElement tag a)) evs false)
      c).1.m_upper = c.m_upper := by
  unfold loadXMLChild
  simp only [QXmlStreamReader.name]
  split_ifs <;>
    simp_all [setName, setType_m_sendExtraPress, setType_m_movementType, setType_m_lower,
      setType_m_upper, setSendExtraPress, setMovementSensitivity, setMovementType, setRange]

/-- A child that is no `movement` element with the text "Relative" leaves the movement type
as it was. -/
theorem loadXMLChild_movementType_same (V : Vocabulary) (tag : String)
    (a : List (String × String)) (kids : List XmlNode)
    (h : (XmlNode.element tag a kids).notRelativeMovement V = true)
    (rest : List XmlEvent) (c : QLCInputChannel) :
    (loadXMLChild V (QXmlStreamReader.mk (some (XmlEvent.StartElement tag a))
      (XmlNode.eventsOfList kids ++ XmlEvent.EndElement :: rest) false)
      c).1.m_movementType = c.m_movementType := by
  simp only [XmlNode.notRelativeMovement, Bool.or_eq_true, Bool.not_eq_true',
    decide_eq_false_iff_not] at h
  unfold loadXMLChild
  simp only [QXmlStreamReader.name, QXmlStreamReader.readElementText,
    QXmlStreamReader.isStartElement, if_true, Bool.false_eq_true, if_false,
    readElementTextAux_textRead, String.empty_append]
  split_ifs <;>
    simp_all [setName, setType_m_sendExtraPress, setType_m_movementType, setType_m_lower,
      setType_m_upper, setSendExtraPress, setMovementSensitivity, setMovementType, setRange]

end QLCInputChannel

/-! ## Any usable writer, any decimal text -/

/-- Reading back the decimal text of a natural number as a `uint`: the number if it fits,
0 otherwise. -/
theorem toUInt_number_nat (n : Nat) :
    QString.toUInt (QString.number (n : Int)) = if n ≤ UINT_MAX then n else 0 := by
  unfold QString.toUInt QString.number
  have hn : ¬ ((n : Int) < 0) := by omega
  simp only [hn, if_false, Int.natAbs_ofNat, trimmed_eq_self _ (decimal_no_space _),
    parseUnsigned_decimal]

namespace QLCInputChannel

theorem saveXML_usable_closed_tag (V : Vocabulary) (c : QLCInputChannel) (n : Nat)
    (evs : List XmlEvent) :
    saveXML V c (some (QXmlStreamWriter.mk (some (Device.mk true)) evs none)) n =
      (true, some (QXmlStreamWriter.mk (some (Device.mk true))
        (evs ++ savedEvents V c n) none)) := by
  rw [savedEvents_eq]
  simp only [movementOrFeedbacks, saveXML, QXmlStreamWriter.writeStartElement,
    QXmlStreamWriter.closeStartTag, QXmlStreamWriter.writeAttribute, List.nil_append,
    QXmlStreamWriter.writeTextElement_tag, QXmlStreamWriter.writeTextElement_open,
    sendExtraPress, type, movementType, movementSensitivity, lowerValue, upperValue,
    reduceCtorEq, if_false]
  by_cases he : c.m_sendExtraPress = true <;>
  by_cases hr : (c.m_type = ChannelType.Slider ∨ c.m_type = ChannelType.Knob) ∧
      c.m_movementType = MovementType.Relative <;>
  by_cases hn : c.m_type = ChannelType.Encoder <;>
  by_cases hB : c.m_type = ChannelType.Button <;>
  by_cases hb : c.m_type = ChannelType.Button ∧ (c.m_lower ≠ 0 ∨ c.m_upper ≠ UCHAR_MAX) <;>
  by_cases hl : c.m_lower ≠ 0 <;>
  by_cases hu : c.m_upper ≠ UCHAR_MAX <;>
  by_cases hv : V.KXMLQLCInputChannelRelative = "" <;>
  simp [he, hr, hn, hB, hb, hl, hu, hv, QXmlStreamWriter.writeTextElement_open,
    QXmlStreamWriter.writeStartElement, QXmlStreamWriter.closeStartTag,
    QXmlStreamWriter.writeAttribute, QXmlStreamWriter.writeCharacters,
    QXmlStreamWriter.writeEndElement, QXmlStreamWriter.put]

theorem saveXML_open_tag (V : Vocabulary) (c : QLCInputChannel) (n : Nat)
    (evs : List XmlEvent) (sn : String) (sa : List (String × String)) :
    saveXML V c (some (QXmlStreamWriter.mk (some (Device.mk true)) evs (some (sn, sa)))) n =
      saveXML V c (some (QXmlStreamWriter.mk (some (Device.mk true))
        (evs ++ [XmlEvent.StartElement sn sa]) none)) n := by
  have e : (QXmlStreamWriter.mk (some (Device.mk true)) evs (some (sn, sa))).writeStartElement
        V.KXMLQLCInputChannel =
      (QXmlStreamWriter.mk (some (Device.mk true)) (evs ++ [XmlEvent.StartElement sn sa])
        none).writeStartElement V.KXMLQLCInputChannel := by
    simp [QXmlStreamWriter.writeStartElement, QXmlStreamWriter.closeStartTag,
      QXmlStreamWriter.put_open]
  simp only [saveXML, reduceCtorEq, if_false, e]

/-- With a writer on an open device `saveXML` succeeds, completes the start tag that was
open and appends the events of the channel element to what was written. -/
theorem saveXML_usable (V : Vocabulary) (c : QLCInputChannel) (n : Nat)
    (evs : List XmlEvent) (st : Option (String × List (String × String))) :
    saveXML V c (some (QXmlStreamWriter.mk (some (Device.mk true)) evs st)) n =
      (true, some (QXmlStreamWriter.mk (some (Device.mk true))
        ((QXmlStreamWriter.mk (some (Device.mk true)) evs st).closeStartTag.written ++
          savedEvents V c n) none)) := by
  cases st with
  | none => exact saveXML_usable_closed_tag V c n evs
  | some s =>
    obtain ⟨sn, sa⟩ := s
    rw [saveXML_open_tag, saveXML_usable_closed_tag]
    simp [QXmlStreamWriter.closeStartTag, QXmlStreamWriter.put_open]

end QLCInputChannel

/-! # The claims -/

open QLCInputChannel

/-- Claim C1, counterexample: with the vocabulary of the spec, a NextPage record with relative
movement, sensitivity 5 and range (10, 200), all within the ranges of their member types,
comes back from `saveXML` and `loadXML` with absolute movement, sensitivity 20 and range
(0, 255): the round trip succeeds but the loaded record is not the original. -/
theorem C1_counterexample :
    (QLCInputChannel.mk "a" ChannelType.NextPage MovementType.Relative 5 true 10 200).InRange ∧
    saveThenLoad specVocabulary
        (QLCInputChannel.mk "a" ChannelType.NextPage MovementType.Relative 5 true 10 200) 7 =
      (true, QLCInputChannel.mk "a" ChannelType.NextPage MovementType.Absolute 20 true 0 255) ∧
    (saveThenLoad specVocabulary
        (QLCInputChannel.mk "a" ChannelType.NextPage MovementType.Relative 5 true 10 200) 7).2 ≠
      QLCInputChannel.mk "a" ChannelType.NextPage MovementType.Relative 5 true 10 200 := by
  decide

/-- Claim C1 (amended): over a well-formed vocabulary, for every record within the ranges of
its member types and every channel number, `saveXML` followed by `loadXML` of the emitted
element into a freshly constructed record succeeds, and the loaded record equals the original
in every attribute exactly when the record is persistent: its movement type is Relative only
if its type is Slider or Knob, its sensitivity differs from 20 only if it is an Encoder or a
relative Slider or Knob, and its range differs from (0, 255) only if it is a Button. -/
theorem C1_round_trip_iff_persistent (V : Vocabulary) (hV : V.WellFormed)
    (c : QLCInputChannel) (hc : c.InRange) (channelNumber : Nat) :
    saveThenLoad V c channelNumber = (true, c) ↔ c.Persistent := by
  rw [saveThenLoad_eq V hV c hc channelNumber]
  simp only [Prod.mk.injEq, true_and]
  exact persisted_eq_iff c

/-- Claim C1 (amended), witness: a relative knob with sensitivity -3 and extra press. -/
theorem C1_round_trip_iff_persistent_witness :
    specVocabulary.WellFormed ∧
    (QLCInputChannel.mk "fader" ChannelType.Knob MovementType.Relative (-3) true 0 255).InRange ∧
    (saveThenLoad specVocabulary
        (QLCInputChannel.mk "fader" ChannelType.Knob MovementType.Relative (-3) true 0 255) 12 =
      (true, QLCInputChannel.mk "fader" ChannelType.Knob MovementType.Relative (-3) true 0 255) ↔
      (QLCInputChannel.mk "fader" ChannelType.Knob MovementType.Relative (-3) true 0
        255).Persistent) :=
  ⟨by decide, by decide,
    C1_round_trip_iff_persistent specVocabulary (by decide) _ (by decide) 12⟩

/-- Claim C2: over a vocabulary with distinct child tags, for every channel number a freshly
constructed record serialized with `saveXML` and deserialized with `loadXML` into another
freshly constructed record gives success and a record equal to the original, which is: name
empty, type Button, movement Absolute, sensitivity 20, no extra press, range (0, 255). -/
theorem C2_default_round_trip (V : Vocabulary) (hV : V.TagsDistinct) (channelNumber : Nat) :
    saveThenLoad V QLCInputChannel.ctor channelNumber = (true, QLCInputChannel.ctor) ∧
    QLCInputChannel.ctor =
      QLCInputChannel.mk "" ChannelType.Button MovementType.Absolute 20 false 0 255 := by
  refine ⟨?_, rfl⟩
  rw [saveThenLoad_eq_while V hV QLCInputChannel.ctor
    (by simp [QLCInputChannel.ctor, stringToType, typeToString])]
  simp [movementOrFeedbacks, QLCInputChannel.ctor, loadXMLWhile_end]

/-- Claim C2, witness: the vocabulary of the spec and channel number 0. -/
theorem C2_default_round_trip_witness :
    specVocabulary.TagsDistinct ∧
    saveThenLoad specVocabulary QLCInputChannel.ctor 0 = (true, QLCInputChannel.ctor) :=
  ⟨by decide, (C2_default_round_trip specVocabulary (by decide) 0).1⟩

/-- Claim C3: over a well-formed vocabulary, for every record of type Slider or Knob with
movement Relative and an `int` sensitivity s, `saveXML` emits, after the `name`, `type` and
optional `extra-press` children, a `movement` child whose sensitivity attribute is the decimal
text of s and whose text is the "Relative" marker, and `loadXML` of the emitted element into a
freshly constructed record gives movement Relative and sensitivity s. -/
theorem C3_relative_slider_round_trip (V : Vocabulary) (hV : V.WellFormed)
    (c : QLCInputChannel) (hc : c.InRange)
    (ht : c.m_type = ChannelType.Slider ∨ c.m_type = ChannelType.Knob)
    (hm : c.m_movementType = MovementType.Relative) (channelNumber : Nat) :
    savedEvents V c channelNumber =
      XmlEvent.StartElement V.KXMLQLCInputChannel
          [(V.KXMLQLCInputChannelNumber, QString.number channelNumber)] ::
        (textElement V.KXMLQLCInputChannelName c.m_name ++
          (textElement V.KXMLQLCInputChannelType (typeToString V c.m_type) ++
            ((if c.m_sendExtraPress = true then
                textElement V.KXMLQLCInputChannelExtraPress "True" else []) ++
              [XmlEvent.StartElement V.KXMLQLCInputChannelMovement
                  [(V.KXMLQLCInputChannelSensitivity, QString.number c.m_movementSensitivity)],
                XmlEvent.Characters V.KXMLQLCInputChannelRelative,
                XmlEvent.EndElement,
                XmlEvent.EndElement]))) ∧
    (saveThenLoad V c channelNumber).1 = true ∧
    (saveThenLoad V c channelNumber).2.m_movementType = MovementType.Relative ∧
    (saveThenLoad V c channelNumber).2.m_movementSensitivity = c.m_movementSensitivity := by
  refine ⟨?_, ?_⟩
  · rw [savedEvents_eq]
    simp [movementOrFeedbacks, ht, hm, hV.2.2.2]
  · rw [saveThenLoad_eq V hV c hc channelNumber]
    simp [persisted, ht, hm]

/-- Claim C3, witness: a Slider with sensitivity 5, whose attribute text is "5". -/
theorem C3_relative_slider_round_trip_witness :
    specVocabulary.WellFormed ∧
    (QLCInputChannel.mk "s" ChannelType.Slider MovementType.Relative 5 false 0 255).InRange ∧
    QString.number 5 = "5" ∧
    (saveThenLoad specVocabulary
      (QLCInputChannel.mk "s" ChannelType.Slider MovementType.Relative 5 false 0 255) 3).2.m_movementType =
        MovementType.Relative ∧
    (saveThenLoad specVocabulary
      (QLCInputChannel.mk "s" ChannelType.Slider MovementType.Relative 5 false 0 255)
        3).2.m_movementSensitivity = 5 :=
  ⟨by decide, by decide, by decide,
    (C3_relative_slider_round_trip specVocabulary (by decide)
      (QLCInputChannel.mk "s" ChannelType.Slider MovementType.Relative 5 false 0 255)
      (by decide) (Or.inl rfl) rfl 3).2.2⟩

/-- Claim C4: over a well-formed vocabulary, for every Button record with bounds l and u in
0..255, `saveXML` emits a `feedbacks` child exactly when (l, u) differs from (0, 255); that
child carries a lower-value attribute (the decimal text of l) exactly when l is not 0 and an
upper-value attribute (the decimal text of u) exactly when u is not 255; and `loadXML` of the
emitted element into a freshly constructed record gives lowerValue l and upperValue u. -/
theorem C4_feedback_range (V : Vocabulary) (hV : V.WellFormed)
    (c : QLCInputChannel) (hc : c.InRange) (hb : c.m_type = ChannelType.Button)
    (channelNumber : Nat) :
    savedEvents V c channelNumber =
      XmlEvent.StartElement V.KXMLQLCInputChannel
          [(V.KXMLQLCInputChannelNumber, QString.number channelNumber)] ::
        (textElement V.KXMLQLCInputChannelName c.m_name ++
          (textElement V.KXMLQLCInputChannelType V.KXMLQLCInputChannelButton ++
            ((if c.m_sendExtraPress = true then
                textElement V.KXMLQLCInputChannelExtraPress "True" else []) ++
              ((if c.m_lower = 0 ∧ c.m_upper = 255 then []
                else
                  [XmlEvent.StartElement V.KXMLQLCInputChannelFeedbacks
                      ((if c.m_lower = 0 then []
                        else [(V.KXMLQLCInputChannelLowerValue, QString.number c.m_lower)]) ++
                       (if c.m_upper = 255 then []
                        else [(V.KXMLQLCInputChannelUpperValue, QString.number c.m_upper)])),
                    XmlEvent.EndElement]) ++
                [XmlEvent.EndElement])))) ∧
    (saveThenLoad V c channelNumber).1 = true ∧
    (saveThenLoad V c channelNumber).2.m_lower = c.m_lower ∧
    (saveThenLoad V c channelNumber).2.m_upper = c.m_upper := by
  refine ⟨?_, ?_⟩
  · rw [savedEvents_eq]
    by_cases hl : c.m_lower = 0 <;> by_cases hu : c.m_upper = 255 <;>
      simp [movementOrFeedbacks, hb, hl, hu, typeToString, UCHAR_MAX]
  · rw [saveThenLoad_eq V hV c hc channelNumber]
    simp [persisted, hb]

/-- Claim C4, witness: a Button with bounds (10, 255) emits `feedbacks` with the lower-value
attribute only and loads back as (10, 255). -/
theorem C4_feedback_range_witness :
    specVocabulary.WellFormed ∧
    (QLCInputChannel.mk "" ChannelType.Button MovementType.Absolute 20 false 10 255).InRange ∧
    savedEvents specVocabulary
        (QLCInputChannel.mk "" ChannelType.Button MovementType.Absolute 20 false 10 255) 1 =
      [XmlEvent.StartElement "channel" [("number", "1")],
        XmlEvent.StartElement "name" [], XmlEvent.EndElement,
        XmlEvent.StartElement "type" [], XmlEvent.Characters "Button", XmlEvent.EndElement,
        XmlEvent.StartElement "feedbacks" [("lower-value", "10")], XmlEvent.EndElement,
        XmlEvent.EndElement] ∧
    (saveThenLoad specVocabulary
        (QLCInputChannel.mk "" ChannelType.Button MovementType.Absolute 20 false 10 255)
        1).2.m_lower = 10 ∧
    (saveThenLoad specVocabulary
        (QLCInputChannel.mk "" ChannelType.Button MovementType.Absolute 20 false 10 255)
        1).2.m_upper = 255 :=
  ⟨by decide, by decide, by decide,
    (C4_feedback_range specVocabulary (by decide)
      (QLCInputChannel.mk "" ChannelType.Button MovementType.Absolute 20 false 10 255)
      (by decide) rfl 1).2.2⟩

/-- Claim C5: over a vocabulary whose seven type tokens are distinct, for each of the seven
named types t (Button, Knob, Encoder, Slider, NextPage, PrevPage, PageSet)
`stringToType (typeToString t) = t`; consequently `typeToString` is injective on the seven
named types. -/
theorem C5_type_token_round_trip (V : Vocabulary) (hV : V.TypesDistinct) :
    (∀ t : ChannelType, t ≠ ChannelType.NoType → stringToType V (typeToString V t) = t) ∧
    (∀ t1 t2 : ChannelType, t1 ≠ ChannelType.NoType → t2 ≠ ChannelType.NoType →
      typeToString V t1 = typeToString V t2 → t1 = t2) := by
  have key : ∀ t : ChannelType, t ≠ ChannelType.NoType →
      stringToType V (typeToString V t) = t := by
    simp only [Vocabulary.TypesDistinct, Vocabulary.typeTokens, List.nodup_cons,
      List.mem_cons, List.mem_singleton, not_or, List.not_mem_nil, not_false_eq_true,
      List.nodup_nil, and_true] at hV
    obtain ⟨⟨b1, b2, b3, b4, b5, b6⟩, ⟨k1, k2, k3, k4, k5⟩, ⟨e1, e2, e3, e4⟩, ⟨s1, s2, s3⟩,
      ⟨u1, u2⟩, d1⟩ := hV
    intro t ht
    cases t <;> simp only [stringToType, typeToString] <;> split_ifs <;> simp_all
  refine ⟨key, fun t1 t2 h1 h2 h => ?_⟩
  rw [← key t1 h1, ← key t2 h2, h]

/-- Claim C5, witness: the vocabulary of the spec and the type Slider. -/
theorem C5_type_token_round_trip_witness :
    specVocabulary.TypesDistinct ∧
    stringToType specVocabulary (typeToString specVocabulary ChannelType.Slider) =
      ChannelType.Slider :=
  ⟨by decide,
    (C5_type_token_round_trip specVocabulary (by decide)).1 ChannelType.Slider (by decide)⟩

/-- Claim C6: `stringToType` is total and matches exactly: for every string that is not equal
to one of the seven type tokens it returns the `NoType` sentinel. -/
theorem C6_unknown_token_is_NoType (V : Vocabulary) (type : String)
    (h : type ∉ V.typeTokens) : stringToType V type = ChannelType.NoType := by
  simp only [Vocabulary.typeTokens, List.mem_cons, List.mem_singleton, not_or,
    List.not_mem_nil, not_false_eq_true, and_true] at h
  obtain ⟨h1, h2, h3, h4, h5, h6, h7⟩ := h
  simp [stringToType, h1, h2, h3, h4, h5, h6, h7]

/-- Claim C6, witness: "bogus", a token in another letter case, the empty string and the
"none" token are no type tokens of the spec's vocabulary and give `NoType`. -/
theorem C6_unknown_token_is_NoType_witness :
    "bogus" ∉ specVocabulary.typeTokens ∧
    stringToType specVocabulary "bogus" = ChannelType.NoType ∧
    stringToType specVocabulary "button" = ChannelType.NoType ∧
    stringToType specVocabulary "" = ChannelType.NoType ∧
    stringToType specVocabulary "none" = ChannelType.NoType :=
  ⟨by decide,
    C6_unknown_token_is_NoType specVocabulary "bogus" (by decide),
    C6_unknown_token_is_NoType specVocabulary "button" (by decide),
    C6_unknown_token_is_NoType specVocabulary "" (by decide),
    C6_unknown_token_is_NoType specVocabulary "none" (by decide)⟩

/-- Claim C7: for every record, whatever its prior sensitivity, and every type t, after
`setType t` the type is t and the sensitivity is 1 if t is Encoder and 20 for every other
type, `NoType` included; a later `setMovementSensitivity v` leaves the type t and makes the
sensitivity v. -/
theorem C7_setType_resets_sensitivity (c : QLCInputChannel) (t : ChannelType) (v : Int) :
    (c.setType t).type = t ∧
    (c.setType t).movementSensitivity = (if t = ChannelType.Encoder then 1 else 20) ∧
    ((c.setType t).setMovementSensitivity v).type = t ∧
    ((c.setType t).setMovementSensitivity v).movementSensitivity = v := by
  by_cases h : t = ChannelType.Encoder <;>
    simp [setType, setMovementSensitivity, type, movementSensitivity, h]

/-- Claim C8: for every target record and every reader positioned on a start tag other than
the channel tag, whatever events follow it, `loadXML` returns failure, the record is equal to
its state before the call in every attribute, and the reader has not moved. -/
theorem C8_wrong_tag_fails_closed (V : Vocabulary) (c : QLCInputChannel) (tag : String)
    (attributes : List (String × String)) (pending : List XmlEvent) (hasError : Bool)
    (h : tag ≠ V.KXMLQLCInputChannel) :
    loadXML V c (QXmlStreamReader.mk (some (XmlEvent.StartElement tag attributes)) pending
        hasError) =
      (false, c, QXmlStreamReader.mk (some (XmlEvent.StartElement tag attributes)) pending
        hasError) := by
  simp [loadXML, QXmlStreamReader.isStartElement, QXmlStreamReader.name, h]

/-- Claim C8, witness: an element `profile` with a `name` and a `type` child leaves a relative
knob untouched. -/
theorem C8_wrong_tag_fails_closed_witness :
    "profile" ≠ specVocabulary.KXMLQLCInputChannel ∧
    loadXML specVocabulary
        (QLCInputChannel.mk "k" ChannelType.Knob MovementType.Relative 7 true 1 2)
        (QXmlStreamReader.mk (some (XmlEvent.StartElement "profile" []))
          [XmlEvent.StartElement "name" [], XmlEvent.Characters "x", XmlEvent.EndElement,
            XmlEvent.StartElement "type" [], XmlEvent.Characters "Slider",
            XmlEvent.EndElement, XmlEvent.EndElement] false) =
      (false, QLCInputChannel.mk "k" ChannelType.Knob MovementType.Relative 7 true 1 2,
        QXmlStreamReader.mk (some (XmlEvent.StartElement "profile" []))
          [XmlEvent.StartElement "name" [], XmlEvent.Characters "x", XmlEvent.EndElement,
            XmlEvent.StartElement "type" [], XmlEvent.Characters "Slider",
            XmlEvent.EndElement, XmlEvent.EndElement] false) :=
  ⟨by decide, C8_wrong_tag_fails_closed specVocabulary _ "profile" [] _ false (by decide)⟩

/-- Claim C9: `loadXML` returns failure if and only if the reader is not positioned on a start
tag with the channel tag. For every reader the loop over the children ends by itself: more
fuel than there are pending events never changes its outcome. In particular `loadXML` returns
success for every element with the channel tag, whatever its attributes and children. -/
theorem C9_failure_iff_not_on_channel (V : Vocabulary) (c : QLCInputChannel)
    (root : QXmlStreamReader) :
    ((loadXML V c root).1 = false ↔
      ¬(root.isStartElement = true ∧ root.name = V.KXMLQLCInputChannel)) ∧
    (∀ fuel, root.pending.length < fuel →
      loadXMLLoop V fuel root c = loadXMLWhile V root c) ∧
    (∀ attributes children rest,
      (loadXML V c (QXmlStreamReader.onElement V.KXMLQLCInputChannel attributes children
        rest)).1 = true) := by
  refine ⟨?_, fun fuel h => (loadXMLWhile_eq_loop V fuel root c h).symm, fun a cs rest => ?_⟩
  · unfold loadXML
    by_cases h1 : root.isStartElement = true <;>
      by_cases h2 : root.name = V.KXMLQLCInputChannel <;> simp [h1, h2]
  · simp [QXmlStreamReader.onElement, loadXML_channel]

/-- Claim C10: unknown children are ignored by `loadXML`: for every target record and every
channel element, loading the element gives the same result and the same record as loading the
element without its direct children whose tag is none of `name`, `type`, `extra-press`,
`movement`, `feedbacks`, whatever is nested inside those children. -/
theorem C10_unknown_children_ignored (V : Vocabulary) (c : QLCInputChannel)
    (attributes : List (String × String)) (children : List XmlNode) (rest : List XmlEvent) :
    (loadXML V c (QXmlStreamReader.onElement V.KXMLQLCInputChannel attributes children
        rest)).1 =
      (loadXML V c (QXmlStreamReader.onElement V.KXMLQLCInputChannel attributes
        (removeUnknown V children) rest)).1 ∧
    (loadXML V c (QXmlStreamReader.onElement V.KXMLQLCInputChannel attributes children
        rest)).2.1 =
      (loadXML V c (QXmlStreamReader.onElement V.KXMLQLCInputChannel attributes
        (removeUnknown V children) rest)).2.1 := by
  simp only [QXmlStreamReader.onElement, loadXML_channel, true_and]
  exact loadXMLWhile_removeUnknown V children (XmlEvent.EndElement :: rest) _ _ c

/-- Claim C11: over a well-formed vocabulary, for every record and channel number, the element
emitted by `saveXML` has, after its `name`, `type` and optional `extra-press` children, at
most one further child, chosen by this priority: for a Slider or Knob with movement Relative
a `movement` child with the sensitivity attribute and the text "Relative"; else for an Encoder
a `movement` child with the sensitivity attribute and no text; else for a Button whose range
is not (0, 255) a `feedbacks` child; otherwise none. So at most one child is a `movement` or
`feedbacks` element. -/
theorem C11_movement_or_feedbacks_by_priority (V : Vocabulary) (hV : V.WellFormed)
    (c : QLCInputChannel) (channelNumber : Nat) :
    savedEvents V c channelNumber =
      XmlEvent.StartElement V.KXMLQLCInputChannel
          [(V.KXMLQLCInputChannelNumber, QString.number channelNumber)] ::
        (textElement V.KXMLQLCInputChannelName c.m_name ++
          (textElement V.KXMLQLCInputChannelType (typeToString V c.m_type) ++
            ((if c.m_sendExtraPress = true then
                textElement V.KXMLQLCInputChannelExtraPress "True" else []) ++
              ((if (c.m_type = ChannelType.Slider ∨ c.m_type = ChannelType.Knob) ∧
                    c.m_movementType = MovementType.Relative then
                  [XmlEvent.StartElement V.KXMLQLCInputChannelMovement
                      [(V.KXMLQLCInputChannelSensitivity,
                        QString.number c.m_movementSensitivity)],
                    XmlEvent.Characters V.KXMLQLCInputChannelRelative,
                    XmlEvent.EndElement]
                else if c.m_type = ChannelType.Encoder then
                  [XmlEvent.StartElement V.KXMLQLCInputChannelMovement
                      [(V.KXMLQLCInputChannelSensitivity,
                        QString.number c.m_movementSensitivity)],
                    XmlEvent.EndElement]
                else if c.m_type = ChannelType.Button ∧
                    (c.m_lower ≠ 0 ∨ c.m_upper ≠ 255) then
                  [XmlEvent.StartElement V.KXMLQLCInputChannelFeedbacks
                      ((if c.m_lower ≠ 0 then
                          [(V.KXMLQLCInputChannelLowerValue, QString.number c.m_lower)]
                        else []) ++
                       (if c.m_upper ≠ 255 then
                          [(V.KXMLQLCInputChannelUpperValue, QString.number c.m_upper)]
                        else [])),
                    XmlEvent.EndElement]
                else []) ++ [XmlEvent.EndElement])))) ∧
    (savedEvents V c channelNumber).tail.countP
        (fun e => e.isStartOf V.KXMLQLCInputChannelMovement ||
          e.isStartOf V.KXMLQLCInputChannelFeedbacks) ≤ 1 := by
  obtain ⟨-, -, ht, hr⟩ := hV
  obtain ⟨⟨-, -, n3, n4⟩, ⟨-, t2, t3⟩, ⟨e1, e2⟩, mf, -⟩ := ht.ne
  rw [savedEvents_eq]
  refine ⟨by simp [movementOrFeedbacks, hr, UCHAR_MAX], ?_⟩
  have htext : ∀ tag text, tag ≠ V.KXMLQLCInputChannelMovement →
      tag ≠ V.KXMLQLCInputChannelFeedbacks →
      (textElement tag text).countP (fun e => e.isStartOf V.KXMLQLCInputChannelMovement ||
        e.isStartOf V.KXMLQLCInputChannelFeedbacks) = 0 := by
    intro tag text h1 h2
    by_cases h : text = "" <;> simp [textElement, h, XmlEvent.isStartOf, h1, h2]
  have hlast : (movementOrFeedbacks V c).countP
      (fun e => e.isStartOf V.KXMLQLCInputChannelMovement ||
        e.isStartOf V.KXMLQLCInputChannelFeedbacks) ≤ 1 := by
    unfold movementOrFeedbacks
    split_ifs <;> simp [XmlEvent.isStartOf, List.countP_cons]
  have hend : [XmlEvent.EndElement].countP
      (fun e => e.isStartOf V.KXMLQLCInputChannelMovement ||
        e.isStartOf V.KXMLQLCInputChannelFeedbacks) = 0 := by
    simp [XmlEvent.isStartOf]
  simp only [List.tail_cons, List.countP_append, htext _ _ n3 n4, htext _ _ t2 t3, hend]
  split_ifs
  · rw [htext _ _ e1 e2]
    omega
  · rw [List.countP_nil]
    omega

/-- Claim C11, witness: a relative Knob with a range other than (0, 255) gets the `movement`
child only. -/
theorem C11_movement_or_feedbacks_by_priority_witness :
    specVocabulary.WellFormed ∧
    savedEvents specVocabulary
        (QLCInputChannel.mk "k" ChannelType.Knob MovementType.Relative 9 false 3 4) 2 =
      [XmlEvent.StartElement "channel" [("number", "2")],
        XmlEvent.StartElement "name" [], XmlEvent.Characters "k", XmlEvent.EndElement,
        XmlEvent.StartElement "type" [], XmlEvent.Characters "Knob", XmlEvent.EndElement,
        XmlEvent.StartElement "movement" [("sensitivity", "9")],
        XmlEvent.Characters "Relative", XmlEvent.EndElement,
        XmlEvent.EndElement] ∧
    (savedEvents specVocabulary
        (QLCInputChannel.mk "k" ChannelType.Knob MovementType.Relative 9 false 3 4)
        2).tail.countP
      (fun e => e.isStartOf specVocabulary.KXMLQLCInputChannelMovement ||
        e.isStartOf specVocabulary.KXMLQLCInputChannelFeedbacks) ≤ 1 :=
  ⟨by decide, by decide,
    (C11_movement_or_feedbacks_by_priority specVocabulary (by decide)
      (QLCInputChannel.mk "k" ChannelType.Knob MovementType.Relative 9 false 3 4) 2).2⟩

/-- Claim C12: for every Button record with range (0, 255) and no extra press, whatever its
name, movement type and sensitivity, and every channel number, the element emitted by
`saveXML` has exactly two children, `name` followed by `type`, and so no `extra-press`,
`movement` or `feedbacks` child. -/
theorem C12_minimal_emission (V : Vocabulary) (c : QLCInputChannel)
    (hb : c.m_type = ChannelType.Button) (hl : c.m_lower = 0) (hu : c.m_upper = 255)
    (he : c.m_sendExtraPress = false) (channelNumber : Nat) :
    savedEvents V c channelNumber =
      XmlEvent.StartElement V.KXMLQLCInputChannel
          [(V.KXMLQLCInputChannelNumber, QString.number channelNumber)] ::
        (textElement V.KXMLQLCInputChannelName c.m_name ++
          (textElement V.KXMLQLCInputChannelType V.KXMLQLCInputChannelButton ++
            [XmlEvent.EndElement])) := by
  rw [savedEvents_eq]
  simp [movementOrFeedbacks, hb, hl, hu, he, typeToString, UCHAR_MAX]

/-- Claim C12, witness: a Button named "b" with relative movement and sensitivity 3. -/
theorem C12_minimal_emission_witness :
    savedEvents specVocabulary
        (QLCInputChannel.mk "b" ChannelType.Button MovementType.Relative 3 false 0 255) 4 =
      [XmlEvent.StartElement "channel" [("number", "4")],
        XmlEvent.StartElement "name" [], XmlEvent.Characters "b", XmlEvent.EndElement,
        XmlEvent.StartElement "type" [], XmlEvent.Characters "Button", XmlEvent.EndElement,
        XmlEvent.EndElement] :=
  C12_minimal_emission specVocabulary
    (QLCInputChannel.mk "b" ChannelType.Button MovementType.Relative 3 false 0 255)
    rfl rfl rfl rfl 4

/-- Claim C13: over a vocabulary with distinct child tags, for every record, every channel
number n and every writer on an open device, `saveXML` succeeds and appends one channel
element to what was written: its number attribute is the decimal text of n, its first child
is `name` with the name of the record as text, its second child is `type` with the text
`typeToString type`, and an `extra-press` child with the text "True" follows directly if
`sendExtraPress` is true; the element has an `extra-press` child if and only if it is. -/
theorem C13_channel_name_type_extra_press (V : Vocabulary) (hV : V.TagsDistinct)
    (c : QLCInputChannel) (channelNumber : Nat) (written : List XmlEvent)
    (startTag : Option (String × List (String × String))) :
    saveXML V c (some (QXmlStreamWriter.mk (some (Device.mk true)) written startTag))
        channelNumber =
      (true, some (QXmlStreamWriter.mk (some (Device.mk true))
        ((QXmlStreamWriter.mk (some (Device.mk true)) written startTag).closeStartTag.written
          ++ savedEvents V c channelNumber) none)) ∧
    savedEvents V c channelNumber =
      XmlEvent.StartElement V.KXMLQLCInputChannel
          [(V.KXMLQLCInputChannelNumber, QString.number channelNumber)] ::
        (textElement V.KXMLQLCInputChannelName c.m_name ++
          (textElement V.KXMLQLCInputChannelType (typeToString V c.m_type) ++
            ((if c.m_sendExtraPress = true then
                [XmlEvent.StartElement V.KXMLQLCInputChannelExtraPress [],
                  XmlEvent.Characters "True", XmlEvent.EndElement]
              else []) ++
              (movementOrFeedbacks V c ++ [XmlEvent.EndElement])))) ∧
    (savedEvents V c channelNumber).tail.countP
        (fun e => e.isStartOf V.KXMLQLCInputChannelExtraPress) =
      (if c.m_sendExtraPress = true then 1 else 0) := by
  obtain ⟨⟨-, n2, -, -⟩, ⟨t1, -, -⟩, ⟨e1, e2⟩, -, -⟩ := hV.ne
  refine ⟨saveXML_usable V c channelNumber written startTag, ?_, ?_⟩
  · rw [savedEvents_eq]
    simp [textElement]
  · rw [savedEvents_eq]
    have htext : ∀ tag text, tag ≠ V.KXMLQLCInputChannelExtraPress →
        (textElement tag text).countP
          (fun e => e.isStartOf V.KXMLQLCInputChannelExtraPress) = 0 := by
      intro tag text h1
      by_cases h : text = "" <;> simp [textElement, h, XmlEvent.isStartOf, h1]
    have hlast : (movementOrFeedbacks V c).countP
        (fun e => e.isStartOf V.KXMLQLCInputChannelExtraPress) = 0 := by
      unfold movementOrFeedbacks
      split_ifs <;> simp [XmlEvent.isStartOf, List.countP_cons, Ne.symm e1, Ne.symm e2]
    have hend : [XmlEvent.EndElement].countP
        (fun e => e.isStartOf V.KXMLQLCInputChannelExtraPress) = 0 := by
      simp [XmlEvent.isStartOf]
    have hextra : (textElement V.KXMLQLCInputChannelExtraPress "True").countP
        (fun e => e.isStartOf V.KXMLQLCInputChannelExtraPress) = 1 := by
      simp [textElement, XmlEvent.isStartOf, List.countP_cons]
    simp only [List.tail_cons, List.countP_append, htext _ _ n2, htext _ _ t1, hlast, hend]
    split_ifs
    · rw [hextra]
    · rw [List.countP_nil]

/-- Claim C13, witness: a record with extra press saved as channel 12 after an open start
tag `profile`. -/
theorem C13_channel_name_type_extra_press_witness :
    specVocabulary.TagsDistinct ∧
    saveXML specVocabulary
        (QLCInputChannel.mk "n" ChannelType.PageSet MovementType.Absolute 20 true 0 255)
        (some (QXmlStreamWriter.mk (some (Device.mk true)) [] (some ("profile", [])))) 12 =
      (true, some (QXmlStreamWriter.mk (some (Device.mk true))
        [XmlEvent.StartElement "profile" [],
          XmlEvent.StartElement "channel" [("number", "12")],
          XmlEvent.StartElement "name" [], XmlEvent.Characters "n", XmlEvent.EndElement,
          XmlEvent.StartElement "type" [], XmlEvent.Characters "PageSet", XmlEvent.EndElement,
          XmlEvent.StartElement "extra-press" [], XmlEvent.Characters "True",
          XmlEvent.EndElement,
          XmlEvent.EndElement] none)) ∧
    (savedEvents specVocabulary
        (QLCInputChannel.mk "n" ChannelType.PageSet MovementType.Absolute 20 true 0 255)
        12).tail.countP
      (fun e => e.isStartOf specVocabulary.KXMLQLCInputChannelExtraPress) = 1 :=
  ⟨by decide, by decide,
    (C13_channel_name_type_extra_press specVocabulary (by decide)
      (QLCInputChannel.mk "n" ChannelType.PageSet MovementType.Absolute 20 true 0 255) 12 []
      none).2.2⟩

/-- Claim C14, counterexample: with the vocabulary of the spec, a `feedbacks` child whose
lower-value attribute is "300", the decimal text of 300, and whose upper-value attribute is
"256" loads as lowerValue 44 and upperValue 0, not as the clamped values 255 and 255. -/
theorem C14_counterexample :
    QString.number 300 = "300" ∧ QString.number 256 = "256" ∧
    (loadXML specVocabulary QLCInputChannel.ctor
      (QXmlStreamReader.onElement "channel" []
        [XmlNode.element "feedbacks" [("lower-value", "300"), ("upper-value", "256")] []]
        [])).2.1.m_lower = 44 ∧
    (loadXML specVocabulary QLCInputChannel.ctor
      (QXmlStreamReader.onElement "channel" []
        [XmlNode.element "feedbacks" [("lower-value", "300"), ("upper-value", "256")] []]
        [])).2.1.m_upper = 0 ∧
    min 300 255 ≠ 44 ∧ min 256 255 ≠ 0 := by
  decide

/-- Claim C14 (amended): over a vocabulary with distinct child tags, for every target record
and every `feedbacks` child, `loadXML` sets lowerValue to the cast to `uchar` of `toUInt` of
the lower-value attribute, or to 0 when the attribute is absent, and upperValue likewise from
the upper-value attribute, or to 255 when it is absent. For an attribute that is the decimal
text of an unsigned integer n this value is n modulo 256 when n is at most 4294967295 and 0
when n is larger; it is n itself when n is at most 255. These are the loaded bounds for every
channel element whose children before that `feedbacks` child are read without error and which
has no later `feedbacks` child. -/
theorem C14_feedbacks_bounds_truncated (V : Vocabulary) (hV : V.TagsDistinct)
    (c : QLCInputChannel) (fa : List (String × String)) :
    (∀ evs : List XmlEvent,
      (loadXMLChild V (QXmlStreamReader.mk
          (some (XmlEvent.StartElement V.KXMLQLCInputChannelFeedbacks fa)) evs false)
        c).1.m_lower =
        (if hasAttribute fa V.KXMLQLCInputChannelLowerValue then
          uchar (QString.toUInt (value fa V.KXMLQLCInputChannelLowerValue)) else 0) ∧
      (loadXMLChild V (QXmlStreamReader.mk
          (some (XmlEvent.StartElement V.KXMLQLCInputChannelFeedbacks fa)) evs false)
        c).1.m_upper =
        (if hasAttribute fa V.KXMLQLCInputChannelUpperValue then
          uchar (QString.toUInt (value fa V.KXMLQLCInputChannelUpperValue)) else 255)) ∧
    (∀ (attributes : List (String × String)) (pre fkids post : List XmlNode)
        (rest : List XmlEvent),
      pre.all (XmlNode.readsCleanly V) = true →
      post.all (fun k => !k.hasTag V.KXMLQLCInputChannelFeedbacks) = true →
      (loadXML V c (QXmlStreamReader.onElement V.KXMLQLCInputChannel attributes
          (pre ++ XmlNode.element V.KXMLQLCInputChannelFeedbacks fa fkids :: post)
          rest)).2.1.m_lower =
        (if hasAttribute fa V.KXMLQLCInputChannelLowerValue then
          uchar (QString.toUInt (value fa V.KXMLQLCInputChannelLowerValue)) else 0) ∧
      (loadXML V c (QXmlStreamReader.onElement V.KXMLQLCInputChannel attributes
          (pre ++ XmlNode.element V.KXMLQLCInputChannelFeedbacks fa fkids :: post)
          rest)).2.1.m_upper =
        (if hasAttribute fa V.KXMLQLCInputChannelUpperValue then
          uchar (QString.toUInt (value fa V.KXMLQLCInputChannelUpperValue)) else 255)) ∧
    (∀ n : Nat, uchar (QString.toUInt (QString.number n)) =
      if n ≤ 4294967295 then n % 256 else 0) ∧
    (∀ n : Nat, n ≤ 255 → uchar (QString.toUInt (QString.number n)) = n) := by
  have hbody : ∀ (evs : List XmlEvent) (c : QLCInputChannel),
      (loadXMLChild V (QXmlStreamReader.mk
          (some (XmlEvent.StartElement V.KXMLQLCInputChannelFeedbacks fa)) evs false)
        c).1.m_lower =
        (if hasAttribute fa V.KXMLQLCInputChannelLowerValue then
          uchar (QString.toUInt (value fa V.KXMLQLCInputChannelLowerValue)) else 0) ∧
      (loadXMLChild V (QXmlStreamReader.mk
          (some (XmlEvent.StartElement V.KXMLQLCInputChannelFeedbacks fa)) evs false)
        c).1.m_upper =
        (if hasAttribute fa V.KXMLQLCInputChannelUpperValue then
          uchar (QString.toUInt (value fa V.KXMLQLCInputChannelUpperValue)) else 255) := by
    intro evs c
    rw [loadXMLChild_feedbacks V hV]
    simp [setRange, UCHAR_MAX]
  have hnum : ∀ n : Nat, uchar (QString.toUInt (QString.number n)) =
      if n ≤ 4294967295 then n % 256 else 0 := by
    intro n
    rw [toUInt_number_nat]
    unfold UINT_MAX uchar
    split_ifs <;> rfl
  refine ⟨fun evs => hbody evs c, ?_, hnum, fun n hn => ?_⟩
  · intro attributes pre fkids post rest hpre hpost
    have key := loadXMLWhile_last_child V
      (fun r => r.m_lower = (if hasAttribute fa V.KXMLQLCInputChannelLowerValue then
          uchar (QString.toUInt (value fa V.KXMLQLCInputChannelLowerValue)) else 0) ∧
        r.m_upper = (if hasAttribute fa V.KXMLQLCInputChannelUpperValue then
          uchar (QString.toUInt (value fa V.KXMLQLCInputChannelUpperValue)) else 255))
      pre V.KXMLQLCInputChannelFeedbacks fa fkids post hpre
      (fun c rest => hbody _ c)
      (fun tag a kids hm c rest hP => by
        have ht : tag ≠ V.KXMLQLCInputChannelFeedbacks := by
          have := List.all_eq_true.mp hpost _ hm
          simpa [XmlNode.hasTag] using this
        obtain ⟨h1, h2⟩ := loadXMLChild_range_same V tag ht a
          (XmlNode.eventsOfList kids ++ XmlEvent.EndElement :: rest) c
        exact ⟨h1.trans hP.1, h2.trans hP.2⟩)
      c (some (XmlEvent.StartElement V.KXMLQLCInputChannel attributes)) rest
    exact ⟨by simpa [QXmlStreamReader.onElement, loadXML_channel] using key.1,
      by simpa [QXmlStreamReader.onElement, loadXML_channel] using key.2⟩
  · rw [hnum n, if_pos (by omega)]
    omega

/-- Claim C14 (amended), witness: after a `name` child, lower-value "300" loads as 44 and an
absent upper-value as 255. -/
theorem C14_feedbacks_bounds_truncated_witness :
    specVocabulary.TagsDistinct ∧
    (loadXML specVocabulary QLCInputChannel.ctor
      (QXmlStreamReader.onElement "channel" []
        ([XmlNode.element "name" [] [XmlNode.text "x"]] ++
          XmlNode.element "feedbacks" [("lower-value", "300")] [] :: [XmlNode.comment])
        [])).2.1.m_lower = 44 ∧
    (loadXML specVocabulary QLCInputChannel.ctor
      (QXmlStreamReader.onElement "channel" []
        ([XmlNode.element "name" [] [XmlNode.text "x"]] ++
          XmlNode.element "feedbacks" [("lower-value", "300")] [] :: [XmlNode.comment])
        [])).2.1.m_upper = 255 :=
  ⟨by decide,
    ((C14_feedbacks_bounds_truncated specVocabulary (by decide) QLCInputChannel.ctor
      [("lower-value", "300")]).2.1 []
      [XmlNode.element "name" [] [XmlNode.text "x"]] [] [XmlNode.comment] []
      (by decide) (by decide)).1.trans (by decide),
    ((C14_feedbacks_bounds_truncated specVocabulary (by decide) QLCInputChannel.ctor
      [("lower-value", "300")]).2.1 []
      [XmlNode.element "name" [] [XmlNode.text "x"]] [] [XmlNode.comment] []
      (by decide) (by decide)).2.trans (by decide)⟩

/-- Claim C15: for every record `createCopy` returns a record equal to the original in every
attribute; in particular the sensitivity is the original one, whatever the type, although the
type of the copy is assigned through `setType`. -/
theorem C15_createCopy_equal (c : QLCInputChannel) :
    c.createCopy = c ∧
    c.createCopy.name = c.name ∧ c.createCopy.type = c.type ∧
    c.createCopy.movementType = c.movementType ∧
    c.createCopy.movementSensitivity = c.movementSensitivity ∧
    c.createCopy.sendExtraPress = c.sendExtraPress ∧
    c.createCopy.lowerValue = c.lowerValue ∧ c.createCopy.upperValue = c.upperValue := by
  have h : c.createCopy = c := by
    obtain ⟨nm, ty, mt, ms, ep, lo, up⟩ := c
    by_cases he : ty = ChannelType.Encoder <;>
      simp [createCopy, QLCInputChannel.ctor, setName, setType, setMovementType,
        setMovementSensitivity, setSendExtraPress, setRange, name, type, movementType,
        movementSensitivity, sendExtraPress, lowerValue, upperValue, he]
  rw [h]
  exact ⟨rfl, rfl, rfl, rfl, rfl, rfl, rfl, rfl⟩

/-- Claim C16, counterexample: with a writer whose device is there but closed, `saveXML`
reports success, although nothing is written. -/
theorem C16_counterexample :
    saveXML specVocabulary QLCInputChannel.ctor
        (some (QXmlStreamWriter.mk (some (Device.mk false)) [] none)) 0 =
      (true, some (QXmlStreamWriter.mk (some (Device.mk false)) [] none)) := by
  decide

/-- Claim C16 (amended): `saveXML` reports failure if and only if the writer is null or its
device is null; for every record and channel number with any other writer, also one whose
device is closed, it reports success; and when it reports failure the writer is as it was,
so nothing is written. -/
theorem C16_failure_iff_null (V : Vocabulary) (c : QLCInputChannel)
    (doc : Option QXmlStreamWriter) (channelNumber : Nat) :
    ((saveXML V c doc channelNumber).1 = false ↔
      (doc = none ∨ ∃ w, doc = some w ∧ w.device = none)) ∧
    ((saveXML V c doc channelNumber).1 = false → (saveXML V c doc channelNumber).2 = doc) := by
  cases doc with
  | none => simp [saveXML]
  | some w =>
    by_cases h : w.device = none <;> simp [saveXML, h]

/-- Claim C17: over a vocabulary with distinct type tokens and a dedicated "none" token,
`types` returns exactly the seven tokens `typeToString` gives for Slider, Knob, Encoder,
Button, NextPage, PrevPage, PageSet, in that order; the list has no duplicates, does not
contain the "none" token, and `stringToType` maps its entries to these seven named types, none
of them to `NoType`. -/
theorem C17_types_in_display_order (V : Vocabulary) (hd : V.TypesDistinct)
    (hn : V.NoneDedicated) :
    types V = [typeToString V ChannelType.Slider, typeToString V ChannelType.Knob,
      typeToString V ChannelType.Encoder, typeToString V ChannelType.Button,
      typeToString V ChannelType.NextPage, typeToString V ChannelType.PrevPage,
      typeToString V ChannelType.PageSet] ∧
    (types V).length = 7 ∧ (types V).Nodup ∧
    typeToString V ChannelType.NoType ∉ types V ∧
    (types V).map (stringToType V) = [ChannelType.Slider, ChannelType.Knob,
      ChannelType.Encoder, ChannelType.Button, ChannelType.NextPage, ChannelType.PrevPage,
      ChannelType.PageSet] ∧
    (∀ s ∈ types V, stringToType V s ≠ ChannelType.NoType) := by
  have hmap : (types V).map (stringToType V) = [ChannelType.Slider, ChannelType.Knob,
      ChannelType.Encoder, ChannelType.Button, ChannelType.NextPage, ChannelType.PrevPage,
      ChannelType.PageSet] := by
    have h := stringToType_typeToString V hd hn
    have e : types V = [typeToString V ChannelType.Slider, typeToString V ChannelType.Knob,
        typeToString V ChannelType.Encoder, typeToString V ChannelType.Button,
        typeToString V ChannelType.NextPage, typeToString V ChannelType.PrevPage,
        typeToString V ChannelType.PageSet] := rfl
    rw [e]
    simp only [List.map_cons, List.map_nil, h]
  refine ⟨rfl, rfl, ?_, ?_, hmap, ?_⟩
  · simp only [Vocabulary.TypesDistinct, Vocabulary.typeTokens, List.nodup_cons,
      List.mem_cons, List.mem_singleton, not_or, List.not_mem_nil, not_false_eq_true,
      List.nodup_nil, and_true] at hd
    obtain ⟨⟨b1, b2, b3, b4, b5, b6⟩, ⟨k1, k2, k3, k4, k5⟩, ⟨e1, e2, e3, e4⟩, ⟨s1, s2, s3⟩,
      ⟨u1, u2⟩, d1⟩ := hd
    simp only [types, List.nodup_cons, List.mem_cons, List.mem_singleton, not_or,
      List.not_mem_nil, not_false_eq_true, List.nodup_nil, and_true]
    exact ⟨⟨Ne.symm k2, Ne.symm e1, Ne.symm b3, s1, s2, s3⟩, ⟨k1, Ne.symm b1, k3, k4, k5⟩,
      ⟨Ne.symm b2, e2, e3, e4⟩, ⟨b4, b5, b6⟩, ⟨u1, u2⟩, d1⟩
  · intro hmem
    apply hn
    simp only [types, typeToString, List.mem_cons, List.mem_singleton, List.not_mem_nil,
      or_false] at hmem
    simp only [Vocabulary.typeTokens, List.mem_cons, List.mem_singleton, List.not_mem_nil,
      or_false]
    tauto
  · intro s hs
    have hm : stringToType V s ∈ (types V).map (stringToType V) := List.mem_map_of_mem _ hs
    rw [hmap] at hm
    intro h0
    rw [h0] at hm
    simp at hm

/-- Claim C17, witness: the vocabulary of the spec. -/
theorem C17_types_in_display_order_witness :
    specVocabulary.TypesDistinct ∧ specVocabulary.NoneDedicated ∧
    types specVocabulary =
      ["Slider", "Knob", "Encoder", "Button", "PageUp", "PageDown", "PageSet"] ∧
    (types specVocabulary).Nodup :=
  ⟨by decide, by decide, by decide,
    (C17_types_in_display_order specVocabulary (by decide) (by decide)).2.2.1⟩

/-- Claim C18: over a well-formed vocabulary, for every Encoder record with movement Absolute,
range (0, 255), any name, either extra press and any `int` sensitivity s, and every channel
number, `saveXML` emits a `movement` child with the sensitivity attribute and no text, and
`loadXML` of the emitted element into a freshly constructed record succeeds and gives a record
equal to the original: type Encoder, movement Absolute and sensitivity s, not the default 1. -/
theorem C18_encoder_round_trip (V : Vocabulary) (hV : V.WellFormed) (c : QLCInputChannel)
    (hc : c.InRange) (ht : c.m_type = ChannelType.Encoder)
    (hm : c.m_movementType = MovementType.Absolute) (hl : c.m_lower = 0)
    (hu : c.m_upper = 255) (channelNumber : Nat) :
    savedEvents V c channelNumber =
      XmlEvent.StartElement V.KXMLQLCInputChannel
          [(V.KXMLQLCInputChannelNumber, QString.number channelNumber)] ::
        (textElement V.KXMLQLCInputChannelName c.m_name ++
          (textElement V.KXMLQLCInputChannelType V.KXMLQLCInputChannelEncoder ++
            ((if c.m_sendExtraPress = true then
                textElement V.KXMLQLCInputChannelExtraPress "True" else []) ++
              [XmlEvent.StartElement V.KXMLQLCInputChannelMovement
                  [(V.KXMLQLCInputChannelSensitivity, QString.number c.m_movementSensitivity)],
                XmlEvent.EndElement,
                XmlEvent.EndElement]))) ∧
    saveThenLoad V c channelNumber = (true, c) ∧
    (saveThenLoad V c channelNumber).2.m_type = ChannelType.Encoder ∧
    (saveThenLoad V c channelNumber).2.m_movementType = MovementType.Absolute ∧
    (saveThenLoad V c channelNumber).2.m_movementSensitivity = c.m_movementSensitivity := by
  have h : saveThenLoad V c channelNumber = (true, c) := by
    rw [saveThenLoad_eq V hV c hc channelNumber]
    obtain ⟨nm, ty, mt, ms, ep, lo, up⟩ := c
    simp only at ht hm hl hu
    subst ht hm hl hu
    simp [persisted, UCHAR_MAX]
  refine ⟨?_, h, ?_⟩
  · rw [savedEvents_eq]
    simp [movementOrFeedbacks, ht, hm, typeToString]
  · rw [h]
    exact ⟨ht, hm, rfl⟩

/-- Claim C18, witness: an Encoder with sensitivity 7 and extra press. -/
theorem C18_encoder_round_trip_witness :
    specVocabulary.WellFormed ∧
    (QLCInputChannel.mk "e" ChannelType.Encoder MovementType.Absolute 7 true 0 255).InRange ∧
    saveThenLoad specVocabulary
        (QLCInputChannel.mk "e" ChannelType.Encoder MovementType.Absolute 7 true 0 255) 5 =
      (true, QLCInputChannel.mk "e" ChannelType.Encoder MovementType.Absolute 7 true 0 255) :=
  ⟨by decide, by decide,
    (C18_encoder_round_trip specVocabulary (by decide)
      (QLCInputChannel.mk "e" ChannelType.Encoder MovementType.Absolute 7 true 0 255)
      (by decide) rfl rfl rfl rfl 5).2.1⟩

/-- Claim C19, counterexample: with the vocabulary of the spec, in a channel element whose
`movement` child with sensitivity "5" contains a child element and is followed by a `type`
child with the Encoder token, the `type` child comes after the last `movement` child, yet the
loaded sensitivity is 5 and the type stays Button: `readElementText` raises an error on the
nested element and the loop ends before the `type` child is read. -/
theorem C19_counterexample :
    (loadXML specVocabulary QLCInputChannel.ctor
      (QXmlStreamReader.onElement "channel" []
        [XmlNode.element "movement" [("sensitivity", "5")] [XmlNode.element "x" [] []],
          XmlNode.element "type" [] [XmlNode.text "Encoder"]] [])).1 = true ∧
    (loadXML specVocabulary QLCInputChannel.ctor
      (QXmlStreamReader.onElement "channel" []
        [XmlNode.element "movement" [("sensitivity", "5")] [XmlNode.element "x" [] []],
          XmlNode.element "type" [] [XmlNode.text "Encoder"]] [])).2.1.m_movementSensitivity =
      5 ∧
    (loadXML specVocabulary QLCInputChannel.ctor
      (QXmlStreamReader.onElement "channel" []
        [XmlNode.element "movement" [("sensitivity", "5")] [XmlNode.element "x" [] []],
          XmlNode.element "type" [] [XmlNode.text "Encoder"]] [])).2.1.m_type =
      ChannelType.Button := by
  decide

/-- Claim C19 (amended): over a vocabulary with distinct child tags and distinct type tokens,
for every target record and every channel element in which a `type` child comes after the last
`movement` child, is the last `type` child, and is preceded only by children that are read
without error (no `name`, `type`, `extra-press` or `movement` child before it contains a child
element), the loaded sensitivity is 1 if the text read from that `type` child is the Encoder
token and 20 otherwise, whatever sensitivity attribute a `movement` child carried. -/
theorem C19_last_type_child_sets_sensitivity (V : Vocabulary) (hT : V.TagsDistinct)
    (hD : V.TypesDistinct) (c : QLCInputChannel) (attributes : List (String × String))
    (pre : List XmlNode) (ta : List (String × String)) (tkids post : List XmlNode)
    (rest : List XmlEvent)
    (hpre : pre.all (XmlNode.readsCleanly V) = true)
    (hpost : post.all (fun k => !k.hasTag V.KXMLQLCInputChannelType &&
      !k.hasTag V.KXMLQLCInputChannelMovement) = true) :
    (loadXML V c (QXmlStreamReader.onElement V.KXMLQLCInputChannel attributes
        (pre ++ XmlNode.element V.KXMLQLCInputChannelType ta tkids :: post)
        rest)).2.1.m_movementSensitivity =
      (if XmlNode.textRead tkids = V.KXMLQLCInputChannelEncoder then 1 else 20) := by
  have henc : ∀ s, stringToType V s = ChannelType.Encoder ↔
      s = V.KXMLQLCInputChannelEncoder := by
    intro s
    simp only [Vocabulary.TypesDistinct, Vocabulary.typeTokens, List.nodup_cons,
      List.mem_cons, List.mem_singleton, not_or, List.not_mem_nil, not_false_eq_true,
      List.nodup_nil, and_true] at hD
    obtain ⟨⟨b1, b2, -⟩, ⟨k1, -⟩, -⟩ := hD
    constructor
    · intro h
      unfold stringToType at h
      split_ifs at h
      assumption
    · intro h
      subst h
      simp [stringToType, Ne.symm b2, Ne.symm k1]
  have key := loadXMLWhile_last_child V
    (fun r => r.m_movementSensitivity =
      (if XmlNode.textRead tkids = V.KXMLQLCInputChannelEncoder then 1 else 20))
    pre V.KXMLQLCInputChannelType ta tkids post hpre
    (fun c rest => by
      rw [loadXMLChild_type V hT, readElementTextAux_textRead, String.empty_append]
      dsimp only
      rw [setType_m_movementSensitivity]
      by_cases h : XmlNode.textRead tkids = V.KXMLQLCInputChannelEncoder
      · rw [if_pos ((henc _).mpr h), if_pos h]
      · rw [if_neg (fun h' => h ((henc _).mp h')), if_neg h])
    (fun tag a kids hm c rest hP => by
      have ht := List.all_eq_true.mp hpost _ hm
      simp only [XmlNode.hasTag, Bool.and_eq_true, Bool.not_eq_true',
        decide_eq_false_iff_not] at ht
      dsimp only at hP ⊢
      rw [loadXMLChild_movementSensitivity_same V tag ht.1 ht.2]
      exact hP)
    c (some (XmlEvent.StartElement V.KXMLQLCInputChannel attributes)) rest
  simpa [QXmlStreamReader.onElement, loadXML_channel] using key

/-- Claim C19 (amended), witness: a `movement` child with sensitivity "5", then `type`
children Slider and Encoder, then a `name` child: the sensitivity is 1. -/
theorem C19_last_type_child_sets_sensitivity_witness :
    specVocabulary.TagsDistinct ∧ specVocabulary.TypesDistinct ∧
    (loadXML specVocabulary QLCInputChannel.ctor
      (QXmlStreamReader.onElement "channel" []
        ([XmlNode.element "movement" [("sensitivity", "5")] [XmlNode.text "Relative"],
            XmlNode.element "type" [] [XmlNode.text "Slider"]] ++
          XmlNode.element "type" [] [XmlNode.text "Encoder"] ::
            [XmlNode.element "name" [] [XmlNode.text "n"]])
        [])).2.1.m_movementSensitivity = 1 :=
  ⟨by decide, by decide,
    (C19_last_type_child_sets_sensitivity specVocabulary (by decide) (by decide)
      QLCInputChannel.ctor []
      [XmlNode.element "movement" [("sensitivity", "5")] [XmlNode.text "Relative"],
        XmlNode.element "type" [] [XmlNode.text "Slider"]] []
      [XmlNode.text "Encoder"] [XmlNode.element "name" [] [XmlNode.text "n"]] []
      (by decide) (by decide)).trans (by decide)⟩

/-- Claim C20: `loadXML` only ever raises the two flags: for every target record and every
reader, so for every channel element, if `sendExtraPress` was true before the load it is true
after it, and if the movement type was Relative before the load it is Relative after it.
Moreover a channel element without an `extra-press` child leaves `sendExtraPress` as it was,
and one in which no `movement` child has the text "Relative" leaves the movement type as it
was. -/
theorem C20_flags_only_raised (V : Vocabulary) (c : QLCInputChannel) :
    (∀ root : QXmlStreamReader,
      (c.m_sendExtraPress = true → (loadXML V c root).2.1.m_sendExtraPress = true) ∧
      (c.m_movementType = MovementType.Relative →
        (loadXML V c root).2.1.m_movementType = MovementType.Relative)) ∧
    (∀ (attributes : List (String × String)) (children : List XmlNode)
        (rest : List XmlEvent),
      (children.all (fun k => !k.hasTag V.KXMLQLCInputChannelExtraPress) = true →
        (loadXML V c (QXmlStreamReader.onElement V.KXMLQLCInputChannel attributes children
          rest)).2.1.m_sendExtraPress = c.m_sendExtraPress) ∧
      (children.all (XmlNode.notRelativeMovement V) = true →
        (loadXML V c (QXmlStreamReader.onElement V.KXMLQLCInputChannel attributes children
          rest)).2.1.m_movementType = c.m_movementType)) := by
  refine ⟨fun root => ⟨fun h => ?_, fun h => ?_⟩, fun attributes children rest =>
    ⟨fun h => ?_, fun h => ?_⟩⟩
  · unfold loadXML
    split_ifs
    · exact h
    · exact loadXMLLoop_invariant V (fun r => r.m_sendExtraPress = true)
        (fun root c hc => loadXMLChild_sendExtraPress_true V root c hc) _ root c h
  · unfold loadXML
    split_ifs
    · exact h
    · exact loadXMLLoop_invariant V (fun r => r.m_movementType = MovementType.Relative)
        (fun root c hc => loadXMLChild_movementType_relative V root c hc) _ root c h
  · have key := loadXMLWhile_invariant V (fun r => r.m_sendExtraPress = c.m_sendExtraPress)
      children
      (fun tag a kids hm c' rest' hP => by
        have ht := List.all_eq_true.mp h _ hm
        simp only [XmlNode.hasTag, Bool.not_eq_true', decide_eq_false_iff_not] at ht
        dsimp only at hP ⊢
        rw [loadXMLChild_sendExtraPress_same V tag ht]
        exact hP)
      c (some (XmlEvent.StartElement V.KXMLQLCInputChannel attributes)) rest rfl
    simpa [QXmlStreamReader.onElement, loadXML_channel] using key
  · have key := loadXMLWhile_invariant V (fun r => r.m_movementType = c.m_movementType)
      children
      (fun tag a kids hm c' rest' hP => by
        dsimp only at hP ⊢
        rw [loadXMLChild_movementType_same V tag a kids (List.all_eq_true.mp h _ hm)]
        exact hP)
      c (some (XmlEvent.StartElement V.KXMLQLCInputChannel attributes)) rest rfl
    simpa [QXmlStreamReader.onElement, loadXML_channel] using key

end QLC
